import Mathlib

/-!
# Routing_v2 — verification of the visit-order and mileage engine

Shallow embedding, in Lean 4, of the algorithmic core of the Routing_v2
repository (TypeScript): the cycle/frequency resolver
(`src/utils/roadMileageSectionXlsx.ts`), the order builder (`buildOrder`,
duplicated in `src/utils/territoryRun.ts` and `RoadMileageModal.tsx`),
the straight-line territory calculation (`buildTerritoryRun`), the road
computation (`src/utils/territoryRoad.ts`), the OSRM client
(`src/utils/osrm.ts`) and the section-scope calculation loop
(`RoadMileageModal.tsx`).

JavaScript numbers are modelled as `ℚ` (all the arithmetic involved is
exact on rationals), the JS remainder `%` as `Int.tmod` (truncated
remainder), `Math.round` as `⌊x + 1/2⌋` (JS rounds half-up, toward +∞).
The transcendental haversine distance is passed as an explicit function
parameter `dist`; every theorem below therefore holds for the actual
haversine distance in particular.  Asynchrony in the OSRM client and in
the calculation loops is modelled by an explicit event/outcome argument
(which of: internal timeout, external abort, HTTP response — settles the
fetch), and the cancellation signal by a predicate giving its state at
each cooperative check point.
-/

namespace Routing

/-! ## Cycle / frequency resolver (`roadMileageSectionXlsx.ts`) -/

/-- JS `%` on numbers: truncated remainder. -/
def jsMod (a b : Int) : Int := Int.tmod a b

/-- JS `Math.round`: round half toward +∞. -/
def jsRound (q : ℚ) : Int := ⌊q + 1/2⌋

/-- `while (w > 52) w -= 52;` — first loop of `getCycleIndexByISOWeek`. -/
def normWeekHigh (w : Int) : Int :=
  if h : w > 52 then normWeekHigh (w - 52) else w
termination_by w.toNat
decreasing_by
  omega

/-- `while (w <= 0) w += 52;` — second loop of `getCycleIndexByISOWeek`. -/
def normWeekLow (w : Int) : Int :=
  if h : w ≤ 0 then normWeekLow (w + 52) else w
termination_by (1 - w).toNat
decreasing_by
  omega

/-- `getCycleIndexByISOWeek` (roadMileageSectionXlsx.ts:328-333):
normalize the week into `1..52`, then `((w - 1) % 4) + 1`. -/
def getCycleIndexByISOWeek (targetISOWeek : Int) : Int :=
  jsMod (normWeekLow (normWeekHigh targetISOWeek) - 1) 4 + 1

/-- `getWeekKeyFromIsoWeek` (territoryRun.ts:19-22):
`String(((isoWeek - 1) % 4) + 1)`. -/
def getWeekKeyFromIsoWeek (isoWeek : Int) : String :=
  toString (jsMod (isoWeek - 1) 4 + 1)

theorem normWeekHigh_of_le {w : Int} (h : w ≤ 52) : normWeekHigh w = w := by
  rw [normWeekHigh.eq_def]
  simp [show ¬ w > 52 by omega]

theorem normWeekHigh_sub {w : Int} (h1 : 52 < w) (h2 : w ≤ 104) :
    normWeekHigh w = w - 52 := by
  rw [normWeekHigh.eq_def]
  simp only [h1, dite_true]
  exact normWeekHigh_of_le (by omega)

theorem normWeekLow_of_pos {w : Int} (h : 0 < w) : normWeekLow w = w := by
  rw [normWeekLow.eq_def]
  simp [show ¬ w ≤ 0 by omega]

theorem getCycleIndexByISOWeek_eq {w : Int} (h1 : 1 ≤ w) (h2 : w ≤ 104) :
    getCycleIndexByISOWeek w = (w - 1) % 4 + 1 := by
  unfold getCycleIndexByISOWeek jsMod
  rcases le_or_lt w 52 with hle | hgt
  · rw [normWeekHigh_of_le hle, normWeekLow_of_pos (by omega)]
    rw [Int.tmod_eq_emod (by omega) (by omega)]
  · rw [normWeekHigh_sub hgt h2, normWeekLow_of_pos (by omega)]
    rw [Int.tmod_eq_emod (by omega) (by omega)]
    omega

/-- Modelled from the spec: the set of canonical recurrence codes.  The
`FREQ_CODE_TO_LABEL` record lives in the repository's `@/constants` module,
which is not among the sources; per the spec the recognized codes are
exactly `"0"`, `"4"`, `"2,1"`, `"2,2"`, `"1,1"`..`"1,4"`. -/
def FREQ_CODE_TO_LABEL_keys : List String :=
  ["0", "4", "2,1", "2,2", "1,1", "1,2", "1,3", "1,4"]

/-- Modelled from the spec: the `FREQ_LEGACY_TO_CANON` record also lives in
the missing `@/constants` module.  The spec defines no legacy recurrence
aliases (codes are either canonical or unknown/fail-open), so the map is
modelled as empty. -/
def FREQ_LEGACY_TO_CANON : String → Option String := fun _ => none

/-- JS `String.prototype.trim`: drop leading and trailing whitespace. -/
def jsTrim (s : String) : String :=
  String.mk ((s.data.dropWhile Char.isWhitespace).reverse.dropWhile Char.isWhitespace |>.reverse)

/-- `str.replace(/\s+/g, '')` on the characters of a string. -/
def stripWhitespace (s : String) : String :=
  String.mk (s.data.filter (fun c => !c.isWhitespace))

/-- JS `String.prototype.replace` with a plain-string pattern replaces only
the first occurrence. -/
def replaceFirstChar (a b : Char) : List Char → List Char
  | [] => []
  | c :: cs => if c = a then b :: cs else c :: replaceFirstChar a b cs

/-- `normalizeFreqCode` (roadMileageSectionXlsx.ts:275-291), on the string
branch of its `unknown` input: trim, reject empty, strip whitespace, look
up the legacy map, convert a `.`-separated code to the `,` form. -/
def normalizeFreqCode (raw : String) : String :=
  let str := jsTrim raw
  if str = "" then ""
  else
    let str := stripWhitespace str
    match FREQ_LEGACY_TO_CANON str with
    | some canon => canon
    | none =>
      if str.data.contains '.' then
        let c := String.mk (replaceFirstChar '.' ',' str.data)
        if FREQ_CODE_TO_LABEL_keys.contains c then c
        else
          match FREQ_LEGACY_TO_CANON c with
          | some canon => canon
          | none => c
      else str

/-- `pointMatchesCycleWeek` (roadMileageSectionXlsx.ts:357-375): the
activity predicate for a recurrence code at a given ISO week. -/
def pointMatchesCycleWeek (frequencyCode : String) (targetISOWeek : Int) : Bool :=
  let freqCode := normalizeFreqCode frequencyCode
  if freqCode = "" then true
  else
    let isOddWeek := jsMod targetISOWeek 2 == 1
    let cycleIndex := getCycleIndexByISOWeek targetISOWeek
    if freqCode = "0" then false
    else if freqCode = "4" then true
    else if freqCode = "2,1" then isOddWeek
    else if freqCode = "2,2" then !isOddWeek
    else if freqCode = "1,1" then cycleIndex == 1
    else if freqCode = "1,2" then cycleIndex == 2
    else if freqCode = "1,3" then cycleIndex == 3
    else if freqCode = "1,4" then cycleIndex == 4
    else true

/-- C3: for every ISO week number `w` in `1..53`, the cycle-slot function
`getCycleIndexByISOWeek` returns `((w - 1) mod 4) + 1`, its result lies in
`{1,2,3,4}`, it has period 4 (`cycleSlot w = cycleSlot (w+4)`), and
`getWeekKeyFromIsoWeek` renders the same slot as a string. -/
theorem cycle_slot_spec (w : Int) (h1 : 1 ≤ w) (h2 : w ≤ 53) :
    getCycleIndexByISOWeek w = (w - 1) % 4 + 1
    ∧ (getCycleIndexByISOWeek w = 1 ∨ getCycleIndexByISOWeek w = 2
       ∨ getCycleIndexByISOWeek w = 3 ∨ getCycleIndexByISOWeek w = 4)
    ∧ getCycleIndexByISOWeek (w + 4) = getCycleIndexByISOWeek w
    ∧ getWeekKeyFromIsoWeek w = toString (getCycleIndexByISOWeek w) := by
  have e1 := getCycleIndexByISOWeek_eq h1 (by omega)
  have e2 := getCycleIndexByISOWeek_eq (show (1 : Int) ≤ w + 4 by omega)
    (show w + 4 ≤ 104 by omega)
  refine ⟨e1, by omega, by omega, ?_⟩
  unfold getWeekKeyFromIsoWeek jsMod
  rw [Int.tmod_eq_emod (by omega) (by omega), e1]

/-- Concrete instance of `cycle_slot_spec` at ISO week 7
(slot `((7-1) mod 4) + 1 = 3`). -/
theorem cycle_slot_spec_witness :
    (1 : Int) ≤ 7 ∧ (7 : Int) ≤ 53
    ∧ (getCycleIndexByISOWeek 7 = ((7 : Int) - 1) % 4 + 1
    ∧ (getCycleIndexByISOWeek 7 = 1 ∨ getCycleIndexByISOWeek 7 = 2
       ∨ getCycleIndexByISOWeek 7 = 3 ∨ getCycleIndexByISOWeek 7 = 4)
    ∧ getCycleIndexByISOWeek ((7 : Int) + 4) = getCycleIndexByISOWeek 7
    ∧ getWeekKeyFromIsoWeek 7 = toString (getCycleIndexByISOWeek 7)) :=
  ⟨by norm_num, by norm_num, cycle_slot_spec 7 (by norm_num) (by norm_num)⟩

/-- C2: behaviour of the activity predicate `pointMatchesCycleWeek` for the
whole recurrence-code taxonomy, for every ISO week `w` in `1..53`: fail-open
for the empty or any unrecognized (after normalization) code, `"0"` never
active, `"4"` always active, `"2,1"`/`"2,2"` on odd/even ISO weeks, and
`"1,k"` exactly when the cycle slot is `k`.  The predicate is a pure total
function of its two arguments — it is embedded as a plain Lean function. -/
theorem frequency_predicate_spec (w : Int) (h1 : 1 ≤ w) (h2 : w ≤ 53) :
    pointMatchesCycleWeek "" w = true
    ∧ pointMatchesCycleWeek "0" w = false
    ∧ pointMatchesCycleWeek "4" w = true
    ∧ (pointMatchesCycleWeek "2,1" w = true ↔ w % 2 = 1)
    ∧ (pointMatchesCycleWeek "2,2" w = true ↔ w % 2 = 0)
    ∧ (pointMatchesCycleWeek "1,1" w = true ↔ getCycleIndexByISOWeek w = 1)
    ∧ (pointMatchesCycleWeek "1,2" w = true ↔ getCycleIndexByISOWeek w = 2)
    ∧ (pointMatchesCycleWeek "1,3" w = true ↔ getCycleIndexByISOWeek w = 3)
    ∧ (pointMatchesCycleWeek "1,4" w = true ↔ getCycleIndexByISOWeek w = 4)
    ∧ (∀ s : String, normalizeFreqCode s ∉ FREQ_CODE_TO_LABEL_keys →
        pointMatchesCycleWeek s w = true) := by
  have hmod : jsMod w 2 = w % 2 := Int.tmod_eq_emod (by omega) (by omega)
  refine ⟨rfl, rfl, rfl, ?_, ?_, ?_, ?_, ?_, ?_, ?_⟩
  · show (jsMod w 2 == 1) = true ↔ w % 2 = 1
    rw [hmod]
    simp
  · show (!(jsMod w 2 == 1)) = true ↔ w % 2 = 0
    rw [hmod]
    simp
  · show (getCycleIndexByISOWeek w == 1) = true ↔ getCycleIndexByISOWeek w = 1
    simp
  · show (getCycleIndexByISOWeek w == 2) = true ↔ getCycleIndexByISOWeek w = 2
    simp
  · show (getCycleIndexByISOWeek w == 3) = true ↔ getCycleIndexByISOWeek w = 3
    simp
  · show (getCycleIndexByISOWeek w == 4) = true ↔ getCycleIndexByISOWeek w = 4
    simp
  · intro s hs
    by_cases he : normalizeFreqCode s = ""
    · simp [pointMatchesCycleWeek, he]
    · have h0 : normalizeFreqCode s ≠ "0" := by
        intro h
        exact hs (by rw [h]; decide)
      have h4 : normalizeFreqCode s ≠ "4" := by
        intro h
        exact hs (by rw [h]; decide)
      have h21 : normalizeFreqCode s ≠ "2,1" := by
        intro h
        exact hs (by rw [h]; decide)
      have h22 : normalizeFreqCode s ≠ "2,2" := by
        intro h
        exact hs (by rw [h]; decide)
      have h11 : normalizeFreqCode s ≠ "1,1" := by
        intro h
        exact hs (by rw [h]; decide)
      have h12 : normalizeFreqCode s ≠ "1,2" := by
        intro h
        exact hs (by rw [h]; decide)
      have h13 : normalizeFreqCode s ≠ "1,3" := by
        intro h
        exact hs (by rw [h]; decide)
      have h14 : normalizeFreqCode s ≠ "1,4" := by
        intro h
        exact hs (by rw [h]; decide)
      simp [pointMatchesCycleWeek, he, h0, h4, h21, h22, h11, h12, h13, h14]

/-- Concrete instance of `frequency_predicate_spec` at ISO week 11: the
odd/even codes and the fail-open default behave as stated. -/
theorem frequency_predicate_spec_witness :
    (1 : Int) ≤ 11 ∧ (11 : Int) ≤ 53
    ∧ pointMatchesCycleWeek "2,1" 11 = true
    ∧ pointMatchesCycleWeek "unknown-code" 11 = true :=
  ⟨by norm_num, by norm_num,
    ((frequency_predicate_spec 11 (by norm_num) (by norm_num)).2.2.2.1).mpr (by decide),
    (frequency_predicate_spec 11 (by norm_num) (by norm_num)).2.2.2.2.2.2.2.2.2
      "unknown-code" (by decide)⟩

/-! ## Order builder (`buildOrder`, territoryRun.ts:56-118 and
RoadMileageModal.tsx:45-117 — the two copies are syntactically identical
up to whitespace and are embedded once). -/

/-- A visit location (`Point` in `src/types/index.ts`).  `visitMinutes` is
`number | string` in TS; it is modelled as `Option ℚ`: `some q` when the
raw value is a (parsed) finite number, `none` when absent or unparsable.
`visitOrderByWeek` is a record from cycle-slot keys to finite numeric
ranks, modelled as an association list. -/
structure Point where
  id : String
  branch : String
  clientCode : String
  name : String
  address : String
  lon : ℚ
  lat : ℚ
  channel : String
  frequencyCode : String
  visitMinutes : Option ℚ
  route : String
  manager : String
  leer : String
  visitDayCode : String
  visitOrderByWeek : List (String × ℚ)
deriving DecidableEq, Inhabited

/-- `p.visitOrderByWeek?.[weekKey]` as a finite number, i.e. the test
`typeof v === 'number' && Number.isFinite(v)` succeeds exactly when this
is `some`. -/
def rankOf (p : Point) (weekKey : String) : Option ℚ :=
  p.visitOrderByWeek.lookup weekKey

/-- The filter `typeof p.visitOrderByWeek?.[weekKey] === 'number' &&
Number.isFinite(p.visitOrderByWeek?.[weekKey])`. -/
def hasSavedRank (p : Point) (weekKey : String) : Bool :=
  (rankOf p weekKey).isSome

/-- `p.visitOrderByWeek?.[weekKey] ?? Number.POSITIVE_INFINITY` — the sort
key used by the comparator in `useExistingAndFill` mode. -/
def rankTop (p : Point) (weekKey : String) : WithTop ℚ :=
  match rankOf p weekKey with
  | some q => (q : WithTop ℚ)
  | none => ⊤

/-- The comparator of the saved-rank sort: ascending by rank, ties broken
by `a.id.localeCompare(b.id)` (modelled as the lexicographic string
order).  `savedOrderRel weekKey a b` holds when the comparator does not
put `a` after `b`. -/
def savedOrderRel (weekKey : String) (a b : Point) : Prop :=
  rankTop a weekKey < rankTop b weekKey
  ∨ (rankTop a weekKey = rankTop b weekKey ∧ a.id ≤ b.id)

instance (weekKey : String) : DecidableRel (savedOrderRel weekKey) := by
  intro a b
  unfold savedOrderRel
  infer_instance

instance (weekKey : String) : IsTotal Point (savedOrderRel weekKey) := by
  constructor
  intro a b
  unfold savedOrderRel
  rcases lt_trichotomy (rankTop a weekKey) (rankTop b weekKey) with h | h | h
  · exact Or.inl (Or.inl h)
  · rcases le_total a.id b.id with hid | hid
    · exact Or.inl (Or.inr ⟨h, hid⟩)
    · exact Or.inr (Or.inr ⟨h.symm, hid⟩)
  · exact Or.inr (Or.inl h)

instance (weekKey : String) : IsTrans Point (savedOrderRel weekKey) := by
  constructor
  intro a b c hab hbc
  unfold savedOrderRel at *
  rcases hab with h1 | ⟨h1, hid1⟩ <;> rcases hbc with h2 | ⟨h2, hid2⟩
  · exact Or.inl (h1.trans h2)
  · exact Or.inl (h2 ▸ h1)
  · exact Or.inl (h1 ▸ h2)
  · exact Or.inr ⟨h1.trans h2, hid1.trans hid2⟩

/-- The inner `for` loop of the nearest-neighbour step (territoryRun.ts
lines 76-85): scan the candidate list keeping the index and value of the
strictly best distance seen so far.  `none` is the initial
`Number.POSITIVE_INFINITY` best. -/
def bestLoop (f : Point → ℚ) : List Point → Nat → Nat × Option ℚ → Nat × Option ℚ
  | [], _, acc => acc
  | p :: rest, i, (bestIdx, bestD) =>
    let d := f p
    let better := match bestD with
      | none => true
      | some b => decide (d < b)
    bestLoop f rest (i + 1) (if better then (i, some d) else (bestIdx, bestD))

/-- The selected `bestIdx` after scanning the whole list, starting from
`bestIdx = 0`, `bestD = +∞`. -/
def scanBest (f : Point → ℚ) (l : List Point) : Nat :=
  (bestLoop f l 0 (0, none)).1

/-- Value of the running best: `+∞` when no candidate has been accepted. -/
def optVal (d : Option ℚ) : WithTop ℚ :=
  match d with
  | some q => (q : WithTop ℚ)
  | none => ⊤

/-- Full characterization of `bestLoop`: either no candidate improved on
the incoming best (and every scanned element is at least the incoming
best value), or the loop returns the position `i + k` of the first
element attaining the minimum of the scanned list, whose value strictly
improves on the incoming best. -/
theorem bestLoop_spec (f : Point → ℚ) :
    ∀ (l : List Point) (i bestIdx : Nat) (bestD : Option ℚ),
    (bestLoop f l i (bestIdx, bestD) = (bestIdx, bestD)
      ∧ ∀ k (hk : k < l.length), optVal bestD ≤ (f (l.get ⟨k, hk⟩) : WithTop ℚ))
    ∨ (∃ k, ∃ hk : k < l.length,
        bestLoop f l i (bestIdx, bestD) = (i + k, some (f (l.get ⟨k, hk⟩)))
        ∧ (f (l.get ⟨k, hk⟩) : WithTop ℚ) < optVal bestD
        ∧ (∀ m (hm : m < l.length), f (l.get ⟨k, hk⟩) ≤ f (l.get ⟨m, hm⟩))
        ∧ (∀ m (hm : m < l.length), m < k → f (l.get ⟨k, hk⟩) < f (l.get ⟨m, hm⟩))) := by
  intro l
  induction l with
  | nil =>
    intro i bestIdx bestD
    left
    exact ⟨rfl, fun k hk => absurd hk (by simp)⟩
  | cons p rest ih =>
    intro i bestIdx bestD
    by_cases hbet : (f p : WithTop ℚ) < optVal bestD
    · have hstep : bestLoop f (p :: rest) i (bestIdx, bestD)
          = bestLoop f rest (i + 1) (i, some (f p)) := by
        simp only [bestLoop]
        congr 1
        cases bestD with
        | none => simp
        | some b =>
          simp only [optVal] at hbet
          rw [if_pos]
          simpa using hbet
      rcases ih (i + 1) i (some (f p)) with ⟨heq, hall⟩ | ⟨k, hk, heq, hlt, hmin, hfirst⟩
      · right
        refine ⟨0, by simp, ?_, hbet, ?_, ?_⟩
        · rw [hstep, heq]
          simp
        · intro m hm
          cases m with
          | zero => exact le_refl _
          | succ m2 =>
            have := hall m2 (by simpa using hm)
            simp only [optVal] at this
            exact_mod_cast this
        · intro m hm hm0
          omega
      · right
        refine ⟨k + 1, by simpa using hk, ?_, ?_, ?_, ?_⟩
        · rw [hstep, heq, show i + 1 + k = i + (k + 1) from by omega]
          rfl
        · calc (f ((p :: rest).get ⟨k + 1, by simpa using hk⟩) : WithTop ℚ)
              = (f (rest.get ⟨k, hk⟩) : WithTop ℚ) := rfl
            _ < optVal (some (f p)) := hlt
            _ = (f p : WithTop ℚ) := rfl
            _ < optVal bestD := hbet
        · intro m hm
          cases m with
          | zero =>
            have : (f (rest.get ⟨k, hk⟩) : WithTop ℚ) < (f p : WithTop ℚ) := hlt
            exact le_of_lt (by exact_mod_cast this)
          | succ m2 => exact hmin m2 (by simpa using hm)
        · intro m hm hmk
          cases m with
          | zero =>
            have : (f (rest.get ⟨k, hk⟩) : WithTop ℚ) < (f p : WithTop ℚ) := hlt
            exact_mod_cast this
          | succ m2 => exact hfirst m2 (by simpa using hm) (by omega)
    · have hb : ∃ b, bestD = some b := by
        cases bestD with
        | none => exact absurd (by simp [optVal] : (f p : WithTop ℚ) < optVal none) hbet
        | some b => exact ⟨b, rfl⟩
      rcases hb with ⟨b, rfl⟩
      have hble : b ≤ f p := by
        simp only [optVal] at hbet
        exact_mod_cast not_lt.mp hbet
      have hstep : bestLoop f (p :: rest) i (bestIdx, some b)
          = bestLoop f rest (i + 1) (bestIdx, some b) := by
        simp only [bestLoop]
        congr 1
        rw [if_neg]
        simp only [decide_eq_true_eq]
        exact not_lt.mpr hble
      rcases ih (i + 1) bestIdx (some b) with ⟨heq, hall⟩ | ⟨k, hk, heq, hlt, hmin, hfirst⟩
      · left
        refine ⟨by rw [hstep, heq], ?_⟩
        intro k hk
        cases k with
        | zero =>
          simp only [optVal]
          exact_mod_cast hble
        | succ k2 => exact hall k2 (by simpa using hk)
      · right
        refine ⟨k + 1, by simpa using hk, ?_, hlt, ?_, ?_⟩
        · rw [hstep, heq, show i + 1 + k = i + (k + 1) from by omega]
          rfl
        · intro m hm
          cases m with
          | zero =>
            have h1 : (f (rest.get ⟨k, hk⟩) : WithTop ℚ) < optVal (some b) := hlt
            simp only [optVal] at h1
            have h2 : f (rest.get ⟨k, hk⟩) < b := by exact_mod_cast h1
            exact le_of_lt (lt_of_lt_of_le h2 hble)
          | succ m2 => exact hmin m2 (by simpa using hm)
        · intro m hm hmk
          cases m with
          | zero =>
            have h1 : (f (rest.get ⟨k, hk⟩) : WithTop ℚ) < optVal (some b) := hlt
            simp only [optVal] at h1
            have h2 : f (rest.get ⟨k, hk⟩) < b := by exact_mod_cast h1
            exact lt_of_lt_of_le h2 hble
          | succ m2 => exact hfirst m2 (by simpa using hm) (by omega)

theorem scanBest_lt (f : Point → ℚ) {l : List Point} (h : l ≠ []) :
    scanBest f l < l.length := by
  unfold scanBest
  rcases bestLoop_spec f l 0 0 none with ⟨heq, _⟩ | ⟨k, hk, heq, _⟩
  · rw [heq]
    cases l with
    | nil => exact absurd rfl h
    | cons a m => simp
  · rw [heq]
    simpa using hk

/-- The greedy selection picks a position attaining the minimum distance,
and among equal minima the smallest position (the JS loop only updates on
a strict improvement). -/
theorem scanBest_spec (f : Point → ℚ) {l : List Point} (h : l ≠ []) :
    ∃ hj : scanBest f l < l.length,
      (∀ m (hm : m < l.length), f (l.get ⟨scanBest f l, hj⟩) ≤ f (l.get ⟨m, hm⟩))
      ∧ (∀ m (hm : m < l.length), m < scanBest f l →
          f (l.get ⟨scanBest f l, hj⟩) < f (l.get ⟨m, hm⟩)) := by
  rcases bestLoop_spec f l 0 0 none with ⟨heq, hall⟩ | ⟨k, hk, heq, _, hmin, hfirst⟩
  · exfalso
    have h0 : 0 < l.length := by
      cases l with
      | nil => exact absurd rfl h
      | cons a m => simp
    have := hall 0 h0
    simp [optVal] at this
  · have hs : scanBest f l = k := by
      unfold scanBest
      rw [heq]
      simp
    exact hs ▸ ⟨hk, hmin, hfirst⟩

/-- A concrete distance function (squared Euclidean) used to instantiate
theorems that are quantified over the distance function. -/
def sqDist (lat1 lon1 lat2 lon2 : ℚ) : ℚ :=
  (lat2 - lat1) ^ 2 + (lon2 - lon1) ^ 2

/-- The nearest-neighbour `while` loop (territoryRun.ts lines 75-90 and
100-115): repeatedly select the unplaced point closest to the current
position (`scanBest`), remove it (`splice`), move the current position to
it. -/
def greedy (dist : ℚ → ℚ → ℚ → ℚ → ℚ) (curLat curLon : ℚ) (rest : List Point) :
    List Point :=
  if hne : rest = [] then []
  else
    let j := scanBest (fun p => dist curLat curLon p.lat p.lon) rest
    let next := rest.getD j default
    next :: greedy dist next.lat next.lon (rest.eraseIdx j)
termination_by rest.length
decreasing_by
  have hj := scanBest_lt (fun p => dist curLat curLon p.lat p.lon) hne
  rw [List.length_eraseIdx_of_lt hj]
  omega

theorem greedy_nil (dist : ℚ → ℚ → ℚ → ℚ → ℚ) (a b : ℚ) :
    greedy dist a b [] = [] := by
  rw [greedy.eq_def]
  simp

theorem greedy_of_ne (dist : ℚ → ℚ → ℚ → ℚ → ℚ) (a b : ℚ) {rest : List Point}
    (h : rest ≠ []) :
    greedy dist a b rest =
      (rest.getD (scanBest (fun p => dist a b p.lat p.lon) rest) default)
        :: greedy dist
          (rest.getD (scanBest (fun p => dist a b p.lat p.lon) rest) default).lat
          (rest.getD (scanBest (fun p => dist a b p.lat p.lon) rest) default).lon
          (rest.eraseIdx (scanBest (fun p => dist a b p.lat p.lon) rest)) := by
  rw [greedy.eq_def]
  simp [h]

theorem greedy_perm_aux (dist : ℚ → ℚ → ℚ → ℚ → ℚ) :
    ∀ (n : Nat) (curLat curLon : ℚ) (rest : List Point), rest.length ≤ n →
      List.Perm (greedy dist curLat curLon rest) rest := by
  intro n
  induction n with
  | zero =>
    intro a b rest hlen
    have : rest = [] := List.length_eq_zero.mp (Nat.le_zero.mp hlen)
    subst this
    rw [greedy_nil]
  | succ n ih =>
    intro a b rest hlen
    by_cases hne : rest = []
    · subst hne
      rw [greedy_nil]
    · rw [greedy_of_ne dist a b hne]
      have hj := scanBest_lt (fun p => dist a b p.lat p.lon) hne
      set j := scanBest (fun p => dist a b p.lat p.lon) rest with hjdef
      have hget : rest.getD j default = rest.get ⟨j, hj⟩ := by
        rw [List.getD_eq_getElem rest default hj]
        simp
      have herase : (rest.eraseIdx j).length ≤ n := by
        rw [List.length_eraseIdx_of_lt hj]
        omega
      have hperm := ih (rest.get ⟨j, hj⟩).lat (rest.get ⟨j, hj⟩).lon
        (rest.eraseIdx j) herase
      rw [hget]
      refine ((hperm.cons _).trans ?_)
      have hsplit : rest = rest.take j ++ rest.get ⟨j, hj⟩ :: rest.drop (j + 1) := by
        conv_lhs => rw [← List.take_append_drop j rest]
        rw [List.drop_eq_getElem_cons hj]
        simp
      rw [List.eraseIdx_eq_take_drop_succ]
      have hmid : List.Perm
          (rest.get ⟨j, hj⟩ :: (rest.take j ++ rest.drop (j + 1)))
          (rest.take j ++ rest.get ⟨j, hj⟩ :: rest.drop (j + 1)) :=
        List.perm_middle.symm
      refine hmid.trans ?_
      conv_rhs => rw [hsplit]

theorem greedy_perm (dist : ℚ → ℚ → ℚ → ℚ → ℚ) (a b : ℚ) (rest : List Point) :
    List.Perm (greedy dist a b rest) rest :=
  greedy_perm_aux dist rest.length a b rest le_rfl

/-- The two order modes (`RoadMileageOrderMode` in `src/types/index.ts`). -/
inductive RoadMileageOrderMode where
  | useExistingAndFill
  | rebuildNearest
deriving DecidableEq, Inhabited

/-- `buildOrder` (territoryRun.ts:56-118, identically RoadMileageModal.tsx:
45-117): in `useExistingAndFill` mode, sort the locations that carry a
finite saved rank for the active cycle-slot key by (rank, id), then append
the remaining locations greedily by nearest neighbour starting from the
last sorted location (or the start when none); in `rebuildNearest` mode,
run the greedy loop on the whole list from the start. -/
def buildOrder (dist : ℚ → ℚ → ℚ → ℚ → ℚ) (orderMode : RoadMileageOrderMode)
    (weekKey : String) (startLat startLon : ℚ) (points : List Point) : List Point :=
  match orderMode with
  | .useExistingAndFill =>
    let ordered :=
      (points.filter (fun p => hasSavedRank p weekKey)).insertionSort
        (savedOrderRel weekKey)
    let orderedIds := ordered.map (fun p => p.id)
    let rest := points.filter (fun p => !(orderedIds.contains p.id))
    let curLat := match ordered.getLast? with
      | some q => q.lat
      | none => startLat
    let curLon := match ordered.getLast? with
      | some q => q.lon
      | none => startLon
    ordered ++ greedy dist curLat curLon rest
  | .rebuildNearest => greedy dist startLat startLon points

theorem buildOrder_filter_ids (weekKey : String) (points : List Point)
    (hnd : (points.map Point.id).Nodup) :
    ∀ p ∈ points,
      (((points.filter (fun p => hasSavedRank p weekKey)).insertionSort
          (savedOrderRel weekKey)).map (fun p => p.id)).contains p.id
        = hasSavedRank p weekKey := by
  intro p hp
  have hperm := List.perm_insertionSort (savedOrderRel weekKey)
    (points.filter (fun p => hasSavedRank p weekKey))
  rw [Bool.eq_iff_iff]
  simp only [List.contains, List.elem_eq_mem, decide_eq_true_eq]
  constructor
  · intro hmem
    have hmem2 : p.id ∈ (points.filter (fun p => hasSavedRank p weekKey)).map
        (fun p => p.id) := ((hperm.map (fun p => p.id)).mem_iff).mp hmem
    rcases List.mem_map.mp hmem2 with ⟨q, hq, hqid⟩
    have hq2 := List.mem_filter.mp hq
    have : q = p := List.inj_on_of_nodup_map hnd hq2.1 hp hqid
    exact this ▸ hq2.2
  · intro hr
    have hpf : p ∈ points.filter (fun p => hasSavedRank p weekKey) :=
      List.mem_filter.mpr ⟨hp, hr⟩
    exact ((hperm.map (fun p => p.id)).mem_iff).mpr
      (List.mem_map.mpr ⟨p, hpf, rfl⟩)

/-- C1 (amended): when the location identifiers are pairwise distinct, the
output of `buildOrder` is a permutation of its input due-location list, in
both order modes and for every distance function, start coordinate and
cycle-slot key — same multiset, same length, no duplicates, no omissions. -/
theorem order_builder_permutation (dist : ℚ → ℚ → ℚ → ℚ → ℚ)
    (orderMode : RoadMileageOrderMode) (weekKey : String) (lat lon : ℚ)
    (points : List Point) (hnd : (points.map Point.id).Nodup) :
    List.Perm (buildOrder dist orderMode weekKey lat lon points) points := by
  cases orderMode with
  | rebuildNearest => exact greedy_perm dist lat lon points
  | useExistingAndFill =>
    simp only [buildOrder]
    have hrest : points.filter
        (fun p => !((((points.filter (fun p => hasSavedRank p weekKey)).insertionSort
          (savedOrderRel weekKey)).map (fun p => p.id)).contains p.id))
        = points.filter (fun p => !(hasSavedRank p weekKey)) := by
      apply List.filter_congr
      intro p hp
      rw [buildOrder_filter_ids weekKey points hnd p hp]
    rw [hrest]
    have hp1 := List.perm_insertionSort (savedOrderRel weekKey)
      (points.filter (fun p => hasSavedRank p weekKey))
    exact (hp1.append (greedy_perm dist _ _ _)).trans
      (List.filter_append_perm _ points)

/-- Helper for concrete instances: a `Point` with the given identifier,
coordinates and saved-rank record, all other fields empty. -/
def mkPoint (pid : String) (plat plon : ℚ) (vow : List (String × ℚ)) : Point :=
  { id := pid, branch := "", clientCode := "", name := "", address := "",
    lon := plon, lat := plat, channel := "", frequencyCode := "",
    visitMinutes := none, route := "", manager := "", leer := "",
    visitDayCode := "", visitOrderByWeek := vow }

def wPointA : Point := mkPoint "a" 1 1 [("1", 2)]

def wPointB : Point := mkPoint "b" 2 2 []

/-- Concrete instance of `order_builder_permutation`: two locations with
distinct identifiers, one carrying a saved rank. -/
theorem order_builder_permutation_witness :
    ([wPointA, wPointB].map Point.id).Nodup
    ∧ List.Perm
        (buildOrder sqDist .useExistingAndFill "1" 0 0 [wPointA, wPointB])
        [wPointA, wPointB] :=
  ⟨by decide,
    order_builder_permutation sqDist .useExistingAndFill "1" 0 0
      [wPointA, wPointB] (by decide)⟩

/-- Two distinct locations sharing the identifier `"a"`, the first with a
saved rank for key `"1"`, the second without. -/
def dupPoint1 : Point := mkPoint "a" 0 0 [("1", 1)]

def dupPoint2 : Point := mkPoint "a" 5 5 []

/-- C1 as stated fails: with two due locations that share an identifier
(one ranked, one not), `useExistingAndFill` drops the unranked one — the
`rest` filter excludes every point whose id is already among the sorted
ids — so the output is not a permutation of the input. -/
theorem order_builder_permutation_cex :
    ¬ List.Perm (buildOrder sqDist .useExistingAndFill "1" 0 0 [dupPoint1, dupPoint2])
      [dupPoint1, dupPoint2] := by
  have hb : buildOrder sqDist .useExistingAndFill "1" 0 0 [dupPoint1, dupPoint2]
      = [dupPoint1] := by
    simp only [buildOrder]
    rw [show List.filter (fun p => hasSavedRank p "1") [dupPoint1, dupPoint2]
        = [dupPoint1] from by decide]
    rw [show List.insertionSort (savedOrderRel "1") [dupPoint1] = [dupPoint1]
        from by decide]
    rw [show List.filter
        (fun p => !((List.map (fun p => p.id) [dupPoint1]).contains p.id))
        [dupPoint1, dupPoint2] = ([] : List Point) from by decide]
    rw [greedy_nil]
    rfl
  intro h
  rw [hb] at h
  have := h.length_eq
  simp at this

/-- C4: with no saved ranks anywhere, `useExistingAndFill` and
`rebuildNearest` produce identical ordered output. -/
theorem modes_agree_no_saved_ranks (dist : ℚ → ℚ → ℚ → ℚ → ℚ)
    (weekKey : String) (lat lon : ℚ) (points : List Point)
    (h : ∀ p ∈ points, rankOf p weekKey = none) :
    buildOrder dist .useExistingAndFill weekKey lat lon points
      = buildOrder dist .rebuildNearest weekKey lat lon points := by
  simp only [buildOrder]
  have hf : points.filter (fun p => hasSavedRank p weekKey) = [] := by
    rw [List.filter_eq_nil_iff]
    intro p hp
    simp [hasSavedRank, h p hp]
  rw [hf]
  simp [List.insertionSort]

/-- Concrete instance of `modes_agree_no_saved_ranks` (the location
`wPointB` carries no saved rank). -/
theorem modes_agree_no_saved_ranks_witness :
    rankOf wPointB "1" = none
    ∧ buildOrder sqDist .useExistingAndFill "1" 0 0 [wPointB]
      = buildOrder sqDist .rebuildNearest "1" 0 0 [wPointB] :=
  ⟨by decide, modes_agree_no_saved_ranks sqDist "1" 0 0 [wPointB] (by decide)⟩

def tiePointB : Point := mkPoint "b" 1 1 []

def tiePointA : Point := mkPoint "a" 1 1 []

/-- A distance stand-in whose value is the candidate's latitude (the
current position is ignored): its values are numeric literals, and two
locations at the same latitude are at equal distance. -/
def latDist : ℚ → ℚ → ℚ → ℚ → ℚ := fun _ _ plat _ => plat

/-- C5 as stated fails on the greedy half: with two unplaced locations at
equal distance from the start, `rebuildNearest` visits the location with
identifier `"b"` first because it comes first in the input list — the
inner loop only updates on a strictly smaller distance — even though
`"a" < "b"` (stated on the character lists of the identifiers). -/
theorem tie_break_cex :
    buildOrder latDist .rebuildNearest "1" 0 0 [tiePointB, tiePointA]
      = [tiePointB, tiePointA]
    ∧ tiePointA.id.data < tiePointB.id.data
    ∧ latDist 0 0 tiePointB.lat tiePointB.lon
      = latDist 0 0 tiePointA.lat tiePointA.lon := by
  refine ⟨?_, by decide, rfl⟩
  simp only [buildOrder]
  rw [greedy_of_ne latDist 0 0 (by decide)]
  rw [show scanBest (fun p => latDist 0 0 p.lat p.lon) [tiePointB, tiePointA] = 0
    from by decide]
  simp only [List.getD, List.get?, Option.getD, List.eraseIdx]
  rw [greedy_of_ne latDist _ _ (by decide)]
  rw [show scanBest
      (fun p => latDist tiePointB.lat tiePointB.lon p.lat p.lon) [tiePointA] = 0
    from by decide]
  simp [greedy_nil, List.getD]

/-- C5 (amended): ties in saved rank are resolved lexicographically by
identifier (the sorted prefix is sorted under `savedOrderRel`, which on
equal ranks orders by id), but ties in greedy distance are resolved by the
earliest position in the input list, not by identifier: the selected
position attains the minimum distance and every earlier position is
strictly worse.  Both modes remain deterministic for a fixed input order
(the embedding is a pure function). -/
theorem tie_break_amended (dist : ℚ → ℚ → ℚ → ℚ → ℚ) (weekKey : String)
    (points : List Point) :
    List.Sorted (savedOrderRel weekKey)
      ((points.filter (fun p => hasSavedRank p weekKey)).insertionSort
        (savedOrderRel weekKey))
    ∧ (∀ a b : Point, rankTop a weekKey = rankTop b weekKey →
        (savedOrderRel weekKey a b ↔ a.id ≤ b.id))
    ∧ (∀ (curLat curLon : ℚ) (rest : List Point), rest ≠ [] →
        ∃ hj : scanBest (fun p => dist curLat curLon p.lat p.lon) rest < rest.length,
          (∀ m (hm : m < rest.length),
            (fun p => dist curLat curLon p.lat p.lon)
                (rest.get ⟨scanBest (fun p => dist curLat curLon p.lat p.lon) rest, hj⟩)
              ≤ (fun p => dist curLat curLon p.lat p.lon) (rest.get ⟨m, hm⟩))
          ∧ (∀ m (hm : m < rest.length),
              m < scanBest (fun p => dist curLat curLon p.lat p.lon) rest →
              (fun p => dist curLat curLon p.lat p.lon)
                  (rest.get ⟨scanBest (fun p => dist curLat curLon p.lat p.lon) rest, hj⟩)
                < (fun p => dist curLat curLon p.lat p.lon) (rest.get ⟨m, hm⟩))) := by
  refine ⟨List.sorted_insertionSort _ _, ?_, ?_⟩
  · intro a b hr
    unfold savedOrderRel
    rw [hr]
    simp
  · intro curLat curLon rest hne
    exact scanBest_spec _ hne

/-- Concrete instance of `tie_break_amended`: the rank-tie comparator
reduces to the identifier order on equal ranks. -/
theorem tie_break_amended_witness :
    rankTop tiePointA "1" = rankTop tiePointB "1"
    ∧ (savedOrderRel "1" tiePointA tiePointB ↔ tiePointA.id ≤ tiePointB.id) :=
  ⟨by decide,
    (tie_break_amended sqDist "1" [tiePointB, tiePointA]).2.1 tiePointA tiePointB
      (by decide)⟩

/-! ## OSRM road-routing client (`src/utils/osrm.ts`).

The network call is modelled by an explicit event: which of the internal
timeout, the external abort signal, or the HTTP response settles the
fetch first.  `externallyAborted` is the state of the external signal
when `osrmRoute` starts (`signal.aborted` checked at line 43): a
pre-aborted signal aborts the controller before the fetch, so the fetch
rejects immediately with an `AbortError` and `timedOut` is still false. -/

/-- A thrown JS value: either the `AbortError` `DOMException` or an
`Error` with a message. -/
inductive JsError where
  | abortError
  | error (msg : String)
deriving DecidableEq

structure OsrmLeg where
  distance : ℚ
  duration : ℚ
deriving DecidableEq

structure OsrmGeometry where
  coordinates : List (ℚ × ℚ)
deriving DecidableEq

/-- One entry of `OsrmRouteResponse.routes`. -/
structure OsrmRouteData where
  distance : ℚ
  duration : ℚ
  legs : List OsrmLeg
  geometry : Option OsrmGeometry
deriving DecidableEq

/-- Which event settles the merged-signal fetch. -/
inductive FetchEvent where
  | timeout
  | externalAbort
  | response (ok : Bool) (status : Nat) (routes : List OsrmRouteData)
deriving DecidableEq

/-- The default `timeoutMs` of `osrmRoute` (osrm.ts:25). -/
def DEFAULT_OSRM_TIMEOUT_MS : Nat := 20000

/-- `osrmRoute` (osrm.ts:18-71): guard on the coordinate count, merge the
external signal with an internal timeout, and classify the outcome.  A
timeout sets `timedOut` before aborting, so a fetch rejection with
`timedOut` set is re-thrown as the distinct `OSRM timeout` error; an
external abort propagates the `AbortError` itself; a non-success HTTP
status and an empty `routes` array are distinct `Error`s. -/
def osrmRoute (coords : List (ℚ × ℚ)) (timeoutMs : Nat)
    (externallyAborted : Bool) (ev : FetchEvent) : Except JsError OsrmRouteData :=
  if coords.length < 2 then
    .error (.error "OSRM route requires at least 2 coords")
  else if externallyAborted then
    .error .abortError
  else
    match ev with
    | .timeout => .error (.error ("OSRM timeout (" ++ toString timeoutMs ++ " ms)"))
    | .externalAbort => .error .abortError
    | .response ok status routes =>
      if !ok then .error (.error ("OSRM error: " ++ toString status))
      else
        match routes with
        | [] => .error (.error "OSRM: empty routes")
        | r :: _ => .ok r

/-- Whether `controller.abort()` has been called by the end of the call:
on a pre-aborted signal (osrm.ts:44), in the timeout callback
(osrm.ts:50-53), or in the external-abort listener (osrm.ts:38-40).  An
aborted controller cancels the in-flight fetch, so the request is never
left pending. -/
def osrmControllerAborted (externallyAborted : Bool) (ev : FetchEvent) : Bool :=
  externallyAborted ||
    (match ev with
     | .timeout => true
     | .externalAbort => true
     | .response _ _ _ => false)

theorem string_append_ne_of_data_get (a b : String) (n : Nat) (c1 c2 : Char)
    (h1 : a.data.get? n = some c1) (h2 : b.data.get? n = some c2)
    (hne : c1 ≠ c2) : ∀ s t : String, a ++ s ≠ b ++ t := by
  intro s t h
  have hd : (a ++ s).data = (b ++ t).data := by rw [h]
  rw [String.data_append, String.data_append] at hd
  have hg := congrArg (fun l => l.get? n) hd
  simp only at hg
  rw [List.get?_append, List.get?_append] at hg
  · rw [h1, h2] at hg
    exact hne (Option.some.inj hg)
  · exact (List.get?_eq_some.mp h2).1
  · exact (List.get?_eq_some.mp h1).1

/-- C9: the OSRM client fails with four mutually distinguishable outcomes
— internal timeout (even with no external cancellation), external abort
(the `AbortError` itself, distinct from the timeout), HTTP non-success
status, and empty route list — and in the timeout and abort cases the
merged controller has been aborted, so the network request is not left
pending.  The default internal timeout is 20000 ms. -/
theorem osrm_client_spec (coords : List (ℚ × ℚ)) (hlen : 2 ≤ coords.length)
    (timeoutMs status : Nat) (routes : List OsrmRouteData) :
    osrmRoute coords timeoutMs false .timeout
      = .error (.error ("OSRM timeout (" ++ toString timeoutMs ++ " ms)"))
    ∧ osrmRoute coords timeoutMs false .externalAbort = .error .abortError
    ∧ osrmRoute coords timeoutMs false (.response false status routes)
      = .error (.error ("OSRM error: " ++ toString status))
    ∧ osrmRoute coords timeoutMs false (.response true status [])
      = .error (.error "OSRM: empty routes")
    ∧ ("OSRM timeout (" ++ toString timeoutMs ++ " ms)" : String)
      ≠ "OSRM error: " ++ toString status
    ∧ ("OSRM timeout (" ++ toString timeoutMs ++ " ms)" : String)
      ≠ "OSRM: empty routes"
    ∧ ("OSRM error: " ++ toString status : String) ≠ "OSRM: empty routes"
    ∧ (∀ msg, JsError.abortError ≠ JsError.error msg)
    ∧ osrmControllerAborted false .timeout = true
    ∧ osrmControllerAborted false .externalAbort = true
    ∧ DEFAULT_OSRM_TIMEOUT_MS = 20000 := by
  have hguard : ¬ coords.length < 2 := by omega
  refine ⟨?_, ?_, ?_, ?_, ?_, ?_, ?_, ?_, rfl, rfl, rfl⟩
  · simp [osrmRoute, hguard]
  · simp [osrmRoute, hguard]
  · simp [osrmRoute, hguard]
  · simp [osrmRoute, hguard]
  · intro h
    exact string_append_ne_of_data_get "OSRM timeout (" "OSRM error: " 5 't' 'e'
      rfl rfl (by decide) (toString timeoutMs ++ " ms)") (toString status)
      (by rw [← String.append_assoc]; exact h)
  · intro h
    exact string_append_ne_of_data_get "OSRM timeout (" "OSRM: empty routes" 4 ' ' ':'
      rfl rfl (by decide) (toString timeoutMs ++ " ms)") ""
      (by rw [← String.append_assoc]; simpa using h)
  · intro h
    exact string_append_ne_of_data_get "OSRM error: " "OSRM: empty routes" 4 ' ' ':'
      rfl rfl (by decide) (toString status) ""
      (by simpa using h)
  · intro msg h
    cases h

/-- Concrete instance of `osrm_client_spec`: two coordinates, an empty
route list is the distinct empty-result error. -/
theorem osrm_client_spec_witness :
    2 ≤ ([((0 : ℚ), (0 : ℚ)), (1, 1)] : List (ℚ × ℚ)).length
    ∧ osrmRoute [((0 : ℚ), (0 : ℚ)), (1, 1)] 20000 false (.response true 500 [])
        = .error (.error "OSRM: empty routes") :=
  ⟨by decide,
    (osrm_client_spec [((0 : ℚ), (0 : ℚ)), (1, 1)] (by decide) 20000 500 []).2.2.2.1⟩

/-! ## Territory run data model (`src/types/index.ts`) and
`buildTerritoryRun` (`src/utils/territoryRun.ts`).

The TS field names `from`/`to` are Lean keywords and are embedded as
`fromLabel`/`toLabel`.  The impure ingredients are passed as parameters:
`isoWeekOfOffset` for `getTargetIsoWeekFromOffset` (which reads today's
date), `runId`/`createdAt` for `uid()`/`toISOString()`, and `dayLabelOf`
for the `DAY_CODE_TO_LABEL` record of the missing `@/constants` module
(`DAY_CODE_TO_LABEL[d] || d` becomes `(dayLabelOf d).getD d`). -/

structure TerritoryCalcStop where
  pointId : String
  clientCode : String
  name : String
  address : String
  lat : ℚ
  lon : ℚ
  visitMinutes : Int
deriving DecidableEq, Inhabited

structure TerritoryCalcStraightSegment where
  fromLabel : String
  toLabel : String
  distanceKm : ℚ
deriving DecidableEq, Inhabited

structure TerritoryCalcRoadLeg where
  fromLabel : String
  toLabel : String
  distanceKm : ℚ
  driveMinutes : Int
deriving DecidableEq, Inhabited

structure StraightResult where
  distanceKm : ℚ
  driveMinutes : Int
  serviceMinutes : Int
  totalMinutes : Int
  segments : List TerritoryCalcStraightSegment
deriving DecidableEq, Inhabited

inductive RoadStatus where
  | ok
  | skipped
  | error
deriving DecidableEq, Inhabited

structure RoadResult where
  calcProvider : String
  computedAt : String
  status : RoadStatus
  errorMessage : Option String
  driveKm : ℚ
  driveMinutes : Int
  serviceMinutes : Int
  totalMinutes : Int
  legs : List TerritoryCalcRoadLeg
deriving DecidableEq, Inhabited

structure TerritoryCalcCombo where
  weekOffset : Int
  isoWeek : Int
  displayWeek : Int
  weekKey : String
  dayCode : String
  dayLabel : String
  orderMode : RoadMileageOrderMode
  stops : List TerritoryCalcStop
  straight : StraightResult
  road : Option RoadResult
deriving DecidableEq, Inhabited

structure StartPointInfo where
  lat : ℚ
  lon : ℚ
  address : String
deriving DecidableEq, Inhabited

structure TerritoryCalcRoute where
  route : String
  startPoint : StartPointInfo
  combos : List TerritoryCalcCombo
deriving DecidableEq, Inhabited

/-- `Array<number | string>` entries of the cycle-weeks filter. -/
structure FiltersSnapshot where
  routes : List String
  branches : List String
  days : List String
  cycleWeeks : List (Sum Int String)
deriving DecidableEq, Inhabited

structure TerritoryCalcRun where
  id : String
  createdAt : String
  orderMode : RoadMileageOrderMode
  orderSaved : Bool
  filtersSnapshot : FiltersSnapshot
  missingStartRoutes : List String
  routes : List TerritoryCalcRoute
deriving DecidableEq, Inhabited

/-- One entry of `plannedOrdersByRoute` (territoryRun.ts:54). -/
structure PlannedOrder where
  weekKey : String
  dayCode : String
  orderedPointIds : List String
deriving DecidableEq, Inhabited

/-- `normalizeVisitMinutes` (territoryRun.ts:13-17): a non-finite,
unparsable or non-positive raw value becomes 15 minutes, otherwise the
value is rounded. -/
def normalizeVisitMinutes (raw : Option ℚ) : Int :=
  match raw with
  | none => 15
  | some n => if n ≤ 0 then 15 else jsRound n

/-- `round1` (territoryRun.ts:5-7): `Math.round(n * 10) / 10`. -/
def round1 (q : ℚ) : ℚ := (jsRound (q * 10) : ℚ) / 10

/-- `toIntMinutes` (territoryRun.ts:9-11): `Math.round(n)`. -/
def toIntMinutes (q : ℚ) : Int := jsRound q

/-- `p.name || p.clientCode` (territoryRun.ts:151-152). -/
def pointLabel (p : Point) : String :=
  if p.name = "" then p.clientCode else p.name

/-- The per-stop sum of visit minutes: `stops.reduce((s, x) => s + x.visitMinutes, 0)`. -/
def sumVisitMinutes (stops : List TerritoryCalcStop) : Int :=
  stops.foldl (fun s x => s + x.visitMinutes) 0

/-- The segment loop of `buildTerritoryRun` (territoryRun.ts:142-156):
walk the ordered stops from the current position, accumulating inflated
haversine distances and per-segment records; the from-label of the first
segment is the start label, afterwards the previous stop's label. -/
def straightLegsAux (dist : ℚ → ℚ → ℚ → ℚ → ℚ) (curLat curLon : ℚ)
    (prevLabel : String) : List Point → ℚ × List TerritoryCalcStraightSegment
  | [] => (0, [])
  | p :: rest =>
    let d := dist curLat curLon p.lat p.lon * 1.3
    let seg : TerritoryCalcStraightSegment :=
      { fromLabel := prevLabel, toLabel := pointLabel p, distanceKm := round1 d }
    let tail := straightLegsAux dist p.lat p.lon (pointLabel p) rest
    (d + tail.1, seg :: tail.2)

/-- `buildTerritoryRun`, per-combination construction (territoryRun.ts:
139-197): segments out from the start, the closing segment back to the
start when there is at least one stop, drive minutes at 40 km/h, service
minutes as the sum of normalized visit minutes, `road` not yet computed. -/
def mkStraightCombo (dist : ℚ → ℚ → ℚ → ℚ → ℚ) (start : StartPointInfo)
    (orderMode : RoadMileageOrderMode) (weekOffset isoWeek displayWeek : Int)
    (weekKey dayCode dayLabel : String) (ordered : List Point) :
    TerritoryCalcCombo :=
  let startLabel := "Старт: " ++ start.address
  let out := straightLegsAux dist start.lat start.lon startLabel ordered
  let km := match ordered.getLast? with
    | some lastP => out.1 + dist lastP.lat lastP.lon start.lat start.lon * 1.3
    | none => out.1
  let segments := match ordered.getLast? with
    | some lastP => out.2 ++
        [{ fromLabel := pointLabel lastP, toLabel := startLabel,
           distanceKm := round1 (dist lastP.lat lastP.lon start.lat start.lon * 1.3) }]
    | none => out.2
  let driveMinutes := toIntMinutes (km / 40 * 60)
  let stops : List TerritoryCalcStop := ordered.map (fun p =>
    { pointId := p.id, clientCode := p.clientCode, name := p.name,
      address := p.address, lat := p.lat, lon := p.lon,
      visitMinutes := normalizeVisitMinutes p.visitMinutes })
  let serviceMinutes := sumVisitMinutes stops
  let totalMinutes := driveMinutes + serviceMinutes
  { weekOffset := weekOffset, isoWeek := isoWeek, displayWeek := displayWeek,
    weekKey := weekKey, dayCode := dayCode, dayLabel := dayLabel,
    orderMode := orderMode, stops := stops,
    straight :=
      { distanceKm := round1 km, driveMinutes := driveMinutes,
        serviceMinutes := serviceMinutes, totalMinutes := totalMinutes,
        segments := segments },
    road := none }

/-- `Number(dayCode)` for the combo sort comparator; day codes are the
numeric strings `"1"`..`"5"`. -/
def dayCodeNum (s : String) : Int := (s.toInt?).getD 0

/-- The comparator of `combos.sort` (territoryRun.ts:201):
`(a.weekOffset - b.weekOffset) || (Number(a.dayCode) - Number(b.dayCode))`. -/
def comboSortRel (a b : TerritoryCalcCombo) : Prop :=
  a.weekOffset < b.weekOffset
  ∨ (a.weekOffset = b.weekOffset ∧ dayCodeNum a.dayCode ≤ dayCodeNum b.dayCode)

instance : DecidableRel comboSortRel := by
  intro a b
  unfold comboSortRel
  infer_instance

/-- The two nested loops over week offsets and day codes (territoryRun.ts:
127-199), producing a combo and a planned-order record per non-empty
(week, day) cell. -/
def comboCells (dist : ℚ → ℚ → ℚ → ℚ → ℚ) (isoWeekOfOffset : Int → Int)
    (dayLabelOf : String → Option String) (orderMode : RoadMileageOrderMode)
    (weekOffsets : List Int) (dayCodes : List String) (start : StartPointInfo)
    (routePointsAll : List Point) : List (TerritoryCalcCombo × PlannedOrder) :=
  weekOffsets.flatMap (fun weekOffset =>
    let isoWeek := isoWeekOfOffset weekOffset
    let displayWeek := if isoWeek > 52 then isoWeek - 52 else isoWeek
    let weekKey := getWeekKeyFromIsoWeek isoWeek
    let pointsInWeek := routePointsAll.filter
      (fun p => pointMatchesCycleWeek p.frequencyCode isoWeek)
    dayCodes.filterMap (fun dayCode =>
      let dayLabel := (dayLabelOf dayCode).getD dayCode
      let dayPoints := pointsInWeek.filter (fun p => p.visitDayCode == dayCode)
      if dayPoints.length = 0 then none
      else
        let ordered := buildOrder dist orderMode weekKey start.lat start.lon dayPoints
        some (mkStraightCombo dist start orderMode weekOffset isoWeek displayWeek
                weekKey dayCode dayLabel ordered,
              { weekKey := weekKey, dayCode := dayCode,
                orderedPointIds := ordered.map (fun p => p.id) })))

/-- `buildTerritoryRun` (territoryRun.ts:30-222): split the active routes
by presence of a start point, build the per-route combos (sorted by week
offset then day code), and return the run plus the planned orders. -/
def buildTerritoryRun (dist : ℚ → ℚ → ℚ → ℚ → ℚ) (isoWeekOfOffset : Int → Int)
    (dayLabelOf : String → Option String) (runId createdAt : String)
    (visiblePoints : List Point) (startByRoute : List (String × StartPointInfo))
    (activeRoutes : List String) (dayCodes : List String) (weekOffsets : List Int)
    (orderMode : RoadMileageOrderMode) (filtersSnapshot : FiltersSnapshot) :
    TerritoryCalcRun × List (String × List PlannedOrder) :=
  let missingStartRoutes := activeRoutes.filter
    (fun r => !(startByRoute.lookup r).isSome)
  let routesToCalc := activeRoutes.filter (fun r => (startByRoute.lookup r).isSome)
  let perRoute := routesToCalc.filterMap (fun route =>
    (startByRoute.lookup route).map (fun start =>
      let routePointsAll := visiblePoints.filter (fun p => p.route == route)
      let cells := comboCells dist isoWeekOfOffset dayLabelOf orderMode
        weekOffsets dayCodes start routePointsAll
      let combos := (cells.map Prod.fst).insertionSort comboSortRel
      ({ route := route, startPoint := start, combos := combos },
        (route, cells.map Prod.snd))))
  ({ id := runId, createdAt := createdAt, orderMode := orderMode,
     orderSaved := false, filtersSnapshot := filtersSnapshot,
     missingStartRoutes := missingStartRoutes,
     routes := perRoute.map Prod.fst },
   perRoute.map Prod.snd)

/-! ## Road computation for a territory run (`src/utils/territoryRoad.ts`).

The loop is embedded with an explicit cancellation-signal state
`abortedBefore i` (the value of `signal?.aborted` at the check before
task `i`, line 52) and a fetch event `eventAt i` per task.  The
`onProgress` callback and the task labels only feed progress reporting
and are not modelled.  Besides the resulting run (or the thrown
`AbortError`), the embedding records the coordinate lists actually
submitted to `osrmRoute`, in order. -/

def DEFAULT_MAX_STOPS_PER_COMBO : Nat := 25

/-- `!c.road || c.road.status !== 'ok'` (territoryRoad.ts:26). -/
def comboNeedsRoad (c : TerritoryCalcCombo) : Bool :=
  match c.road with
  | none => true
  | some r => !(r.status == RoadStatus.ok)

/-- One entry of the task list (territoryRoad.ts:21-35). -/
structure RoadTask where
  routeIdx : Nat
  comboIdx : Nat
deriving DecidableEq, Inhabited

/-- The task-list construction (territoryRoad.ts:21-35): combos that still
need a road result and have at least one stop. -/
def roadTasks (run : TerritoryCalcRun) : List RoadTask :=
  run.routes.enum.flatMap (fun rpair =>
    rpair.2.combos.enum.filterMap (fun cpair =>
      if comboNeedsRoad cpair.2 && !(cpair.2.stops.length == 0) then
        some { routeIdx := rpair.1, comboIdx := cpair.1 }
      else none))

/-- The coordinate list submitted for one combo (territoryRoad.ts:81-85):
start, stops, start. -/
def taskCoords (rr : TerritoryCalcRoute) (c : TerritoryCalcCombo) :
    List (ℚ × ℚ) :=
  (rr.startPoint.lat, rr.startPoint.lon)
    :: (c.stops.map (fun s => (s.lat, s.lon)) ++ [(rr.startPoint.lat, rr.startPoint.lon)])

/-- Apply `f` to the element at position `n`, if any. -/
def listModify (f : α → α) : Nat → List α → List α
  | _, [] => []
  | 0, a :: as => f a :: as
  | n + 1, a :: as => a :: listModify f n as

/-- `c.road = ...` on the combo at `(ri, ci)` of the (copied) run. -/
def setComboRoad (run : TerritoryCalcRun) (ri ci : Nat) (road : RoadResult) :
    TerritoryCalcRun :=
  { run with
    routes :=
      listModify
        (fun rr =>
          { rr with
            combos :=
              listModify (fun c => { c with road := some road }) ci rr.combos })
        ri run.routes }

def routeAt (run : TerritoryCalcRun) (ri : Nat) : Option TerritoryCalcRoute :=
  run.routes.get? ri

def comboAt (run : TerritoryCalcRun) (ri ci : Nat) : Option TerritoryCalcCombo :=
  match run.routes.get? ri with
  | none => none
  | some rr => rr.combos.get? ci

/-- The `skipped` road record (territoryRoad.ts:64-78). -/
def skippedRoadResult (maxStops : Nat) (nowStr : String) (serviceMinutes : Int) :
    RoadResult :=
  { calcProvider := "osrm", computedAt := nowStr, status := .skipped,
    errorMessage := some ("Слишком много точек для расчёта по дорогам (>"
      ++ toString maxStops ++ ")."),
    driveKm := 0, driveMinutes := 0, serviceMinutes := serviceMinutes,
    totalMinutes := serviceMinutes, legs := [] }

/-- `c.stops[i]?.name || c.stops[i]?.clientCode || ''` (territoryRoad.ts:
99-105). -/
def stopLabelAt (stops : List TerritoryCalcStop) (i : Nat) : String :=
  match stops.get? i with
  | none => ""
  | some s =>
    if s.name = "" then (if s.clientCode = "" then "" else s.clientCode)
    else s.name

/-- The per-leg labelling of an OSRM result (territoryRoad.ts:98-113). -/
def mkRoadLegs (startAddress : String) (stops : List TerritoryCalcStop)
    (legs : List OsrmLeg) : List TerritoryCalcRoadLeg :=
  legs.enum.map (fun lpair =>
    { fromLabel := if lpair.1 = 0 then "Старт: " ++ startAddress
        else stopLabelAt stops (lpair.1 - 1),
      toLabel := if lpair.1 = stops.length then "Старт: " ++ startAddress
        else stopLabelAt stops lpair.1,
      distanceKm := round1 (lpair.2.distance / 1000),
      driveMinutes := toIntMinutes (lpair.2.duration / 60) })

/-- The `ok` road record (territoryRoad.ts:115-124). -/
def okRoadResult (nowStr : String) (routeRes : OsrmRouteData)
    (startAddress : String) (stops : List TerritoryCalcStop)
    (serviceMinutes : Int) : RoadResult :=
  { calcProvider := "osrm", computedAt := nowStr, status := .ok,
    errorMessage := none,
    driveKm := round1 (routeRes.distance / 1000),
    driveMinutes := toIntMinutes (routeRes.duration / 60),
    serviceMinutes := serviceMinutes,
    totalMinutes := toIntMinutes (routeRes.duration / 60) + serviceMinutes,
    legs := mkRoadLegs startAddress stops routeRes.legs }

/-- The `error` road record (territoryRoad.ts:125-137); `msg` is
`e.message` for a thrown `Error` and `'Aborted'` for the `AbortError`
`DOMException`. -/
def errorRoadResult (nowStr : String) (msg : String) (serviceMinutes : Int) :
    RoadResult :=
  { calcProvider := "osrm", computedAt := nowStr, status := .error,
    errorMessage := some msg,
    driveKm := 0, driveMinutes := 0, serviceMinutes := serviceMinutes,
    totalMinutes := serviceMinutes, legs := [] }

instance {ε α : Type} [DecidableEq ε] [DecidableEq α] :
    DecidableEq (Except ε α) := fun a b =>
  match a, b with
  | .ok x, .ok y =>
    if h : x = y then isTrue (by rw [h])
    else isFalse (by intro hh; cases hh; exact h rfl)
  | .error x, .error y =>
    if h : x = y then isTrue (by rw [h])
    else isFalse (by intro hh; cases hh; exact h rfl)
  | .ok _, .error _ => isFalse (by intro hh; cases hh)
  | .error _, .ok _ => isFalse (by intro hh; cases hh)

def jsErrorMessage (e : JsError) : String :=
  match e with
  | .abortError => "Aborted"
  | .error m => m

/-- Result of the road loop: the computed run (or the `AbortError` thrown
at a cancellation check) together with the coordinate lists submitted to
the provider, in order. -/
structure RoadsOutcome where
  result : Except JsError TerritoryCalcRun
  requests : List (List (ℚ × ℚ))
deriving DecidableEq

/-- The main loop of `computeTerritoryRunRoads` (territoryRoad.ts:51-141),
processing the remaining tasks; `i` is the index of the next task. -/
def roadsLoop (maxStops : Nat) (abortedBefore : Nat → Bool)
    (eventAt : Nat → FetchEvent) (nowStr : String) (nowAt : Nat → String) :
    List RoadTask → Nat → TerritoryCalcRun → RoadsOutcome
  | [], _, cur => { result := .ok cur, requests := [] }
  | t :: rest, i, cur =>
    if abortedBefore i then
      { result := .error .abortError, requests := [] }
    else
      let rr := cur.routes.getD t.routeIdx default
      let c := rr.combos.getD t.comboIdx default
      let serviceMinutes := sumVisitMinutes c.stops
      if c.stops.length > maxStops then
        roadsLoop maxStops abortedBefore eventAt nowStr nowAt rest (i + 1)
          (setComboRoad cur t.routeIdx t.comboIdx
            (skippedRoadResult maxStops nowStr serviceMinutes))
      else
        let coords := taskCoords rr c
        let next :=
          match osrmRoute coords 25000 false (eventAt i) with
          | .ok routeRes =>
            setComboRoad cur t.routeIdx t.comboIdx
              (okRoadResult (nowAt i) routeRes rr.startPoint.address c.stops
                serviceMinutes)
          | .error e =>
            setComboRoad cur t.routeIdx t.comboIdx
              (errorRoadResult (nowAt i) (jsErrorMessage e) serviceMinutes)
        let out := roadsLoop maxStops abortedBefore eventAt nowStr nowAt rest
          (i + 1) next
        { result := out.result, requests := coords :: out.requests }

/-- `computeTerritoryRunRoads` (territoryRoad.ts:12-144): build the task
list, return the run unchanged when there is nothing to do, otherwise run
the loop on a (value-level) copy of the run. -/
def computeTerritoryRunRoads (maxStops : Nat) (abortedBefore : Nat → Bool)
    (eventAt : Nat → FetchEvent) (nowStr : String) (nowAt : Nat → String)
    (run : TerritoryCalcRun) : RoadsOutcome :=
  let tasks := roadTasks run
  if tasks.length = 0 then { result := .ok run, requests := [] }
  else roadsLoop maxStops abortedBefore eventAt nowStr nowAt tasks 0 run

theorem listModify_get? (f : α → α) :
    ∀ (n : Nat) (l : List α) (m : Nat),
      (listModify f n l).get? m = if m = n then (l.get? m).map f else l.get? m := by
  intro n l
  induction l generalizing n with
  | nil =>
    intro m
    simp [listModify]
  | cons a as ih =>
    intro m
    cases n with
    | zero =>
      cases m with
      | zero => simp [listModify]
      | succ m2 => simp [listModify]
    | succ n2 =>
      cases m with
      | zero => simp [listModify]
      | succ m2 =>
        simp only [listModify, List.get?_cons_succ, ih n2 m2]
        by_cases h : m2 = n2 <;> simp [h]

theorem routeAt_setComboRoad (run : TerritoryCalcRun) (ri ci : Nat)
    (road : RoadResult) (m : Nat) :
    routeAt (setComboRoad run ri ci road) m
      = (routeAt run m).map (fun rr =>
          if m = ri then
            { rr with combos :=
                listModify (fun c => { c with road := some road }) ci rr.combos }
          else rr) := by
  unfold routeAt setComboRoad
  simp only [listModify_get? _ ri run.routes m]
  by_cases h : m = ri <;> simp [h]

theorem comboAt_setComboRoad (run : TerritoryCalcRun) (ri ci : Nat)
    (road : RoadResult) (m n : Nat) :
    comboAt (setComboRoad run ri ci road) m n
      = if m = ri ∧ n = ci then
          (comboAt run m n).map (fun c => { c with road := some road })
        else comboAt run m n := by
  unfold comboAt setComboRoad
  simp only []
  rw [listModify_get?]
  by_cases hm : m = ri
  · subst hm
    simp only [if_pos rfl]
    cases hget : run.routes.get? m with
    | none => simp [hget]
    | some rr =>
      simp only [hget, Option.map_some]
      show (listModify (fun c => { c with road := some road }) ci rr.combos).get? n
        = _
      rw [listModify_get?]
      by_cases hn : n = ci
      · subst hn
        simp [hget]
      · simp [hget, hn]
  · simp [hm]

theorem startPointAt_setComboRoad (run : TerritoryCalcRun) (ri ci : Nat)
    (road : RoadResult) (m : Nat) :
    (routeAt (setComboRoad run ri ci road) m).map (fun rr => rr.startPoint)
      = (routeAt run m).map (fun rr => rr.startPoint) := by
  rw [routeAt_setComboRoad]
  cases routeAt run m with
  | none => rfl
  | some rr => by_cases h : m = ri <;> simp [h]

theorem stopsAt_setComboRoad (run : TerritoryCalcRun) (ri ci : Nat)
    (road : RoadResult) (m n : Nat) :
    (comboAt (setComboRoad run ri ci road) m n).map (fun c => c.stops)
      = (comboAt run m n).map (fun c => c.stops) := by
  rw [comboAt_setComboRoad]
  by_cases h : m = ri ∧ n = ci
  · rw [if_pos h]
    cases comboAt run m n with
    | none => rfl
    | some c => rfl
  · rw [if_neg h]

theorem setComboRoad_fields (run : TerritoryCalcRun) (ri ci : Nat)
    (road : RoadResult) :
    (setComboRoad run ri ci road).id = run.id
    ∧ (setComboRoad run ri ci road).createdAt = run.createdAt
    ∧ (setComboRoad run ri ci road).orderMode = run.orderMode
    ∧ (setComboRoad run ri ci road).orderSaved = run.orderSaved
    ∧ (setComboRoad run ri ci road).filtersSnapshot = run.filtersSnapshot
    ∧ (setComboRoad run ri ci road).missingStartRoutes = run.missingStartRoutes :=
  ⟨rfl, rfl, rfl, rfl, rfl, rfl⟩

theorem taskCoords_congr {rr rr2 : TerritoryCalcRoute}
    {c c2 : TerritoryCalcCombo} (h1 : rr.startPoint = rr2.startPoint)
    (h2 : c.stops = c2.stops) : taskCoords rr c = taskCoords rr2 c2 := by
  unfold taskCoords
  rw [h1, h2]

theorem routeAt_getD {run : TerritoryCalcRun} {ri : Nat}
    {rr : TerritoryCalcRoute} (h : routeAt run ri = some rr) :
    run.routes.getD ri default = rr := by
  unfold routeAt at h
  unfold List.getD
  rw [h]
  rfl

theorem comboAt_getD {run : TerritoryCalcRun} {ri ci : Nat}
    {c : TerritoryCalcCombo} (h : comboAt run ri ci = some c) :
    (run.routes.getD ri default).combos.getD ci default = c := by
  unfold comboAt at h
  cases hr : run.routes.get? ri with
  | none => rw [hr] at h; cases h
  | some rr =>
    rw [hr] at h
    have hc : rr.combos.get? ci = some c := h
    rw [routeAt_getD hr]
    unfold List.getD
    rw [hc]
    rfl

theorem roadsLoop_completes (maxStops : Nat) (abortedBefore : Nat → Bool)
    (eventAt : Nat → FetchEvent) (nowStr : String) (nowAt : Nat → String)
    (hno : ∀ j, abortedBefore j = false) :
    ∀ (tasks : List RoadTask) (i : Nat) (cur : TerritoryCalcRun),
      ∃ run2, (roadsLoop maxStops abortedBefore eventAt nowStr nowAt
        tasks i cur).result = .ok run2 := by
  intro tasks
  induction tasks with
  | nil =>
    intro i cur
    exact ⟨cur, rfl⟩
  | cons t rest ih =>
    intro i cur
    simp only [roadsLoop, hno i, Bool.false_eq_true, if_false]
    split
    · exact ih (i + 1) _
    · exact ih (i + 1) _

theorem roadsLoop_frame (maxStops : Nat) (abortedBefore : Nat → Bool)
    (eventAt : Nat → FetchEvent) (nowStr : String) (nowAt : Nat → String) :
    ∀ (tasks : List RoadTask) (i : Nat) (cur run2 : TerritoryCalcRun),
      (roadsLoop maxStops abortedBefore eventAt nowStr nowAt
        tasks i cur).result = .ok run2 →
      (∀ m, (routeAt run2 m).map (fun rr => rr.startPoint)
          = (routeAt cur m).map (fun rr => rr.startPoint))
      ∧ (∀ m n, (comboAt run2 m n).map (fun c => c.stops)
          = (comboAt cur m n).map (fun c => c.stops))
      ∧ run2.id = cur.id ∧ run2.createdAt = cur.createdAt
      ∧ run2.orderMode = cur.orderMode ∧ run2.orderSaved = cur.orderSaved
      ∧ run2.filtersSnapshot = cur.filtersSnapshot
      ∧ run2.missingStartRoutes = cur.missingStartRoutes := by
  intro tasks
  induction tasks with
  | nil =>
    intro i cur run2 h
    have : cur = run2 := by
      simpa [roadsLoop] using h
    subst this
    exact ⟨fun m => rfl, fun m n => rfl, rfl, rfl, rfl, rfl, rfl, rfl⟩
  | cons t rest ih =>
    intro i cur run2 h
    by_cases habort : abortedBefore i
    · simp [roadsLoop, habort] at h
    · simp only [roadsLoop, habort, Bool.false_eq_true, if_false] at h
      split at h
      · rcases ih (i + 1) _ run2 h with ⟨h1, h2, h3, h4, h5, h6, h7, h8⟩
        exact ⟨fun m => by rw [h1 m, startPointAt_setComboRoad],
               fun m n => by rw [h2 m n, stopsAt_setComboRoad],
               h3, h4, h5, h6, h7, h8⟩
      · cases hres : osrmRoute (taskCoords (cur.routes.getD t.routeIdx default)
            ((cur.routes.getD t.routeIdx default).combos.getD t.comboIdx default))
            25000 false (eventAt i) with
        | ok routeRes =>
          rw [hres] at h
          rcases ih (i + 1) _ run2 h with ⟨h1, h2, h3, h4, h5, h6, h7, h8⟩
          exact ⟨fun m => by rw [h1 m, startPointAt_setComboRoad],
                 fun m n => by rw [h2 m n, stopsAt_setComboRoad],
                 h3, h4, h5, h6, h7, h8⟩
        | error e2 =>
          rw [hres] at h
          rcases ih (i + 1) _ run2 h with ⟨h1, h2, h3, h4, h5, h6, h7, h8⟩
          exact ⟨fun m => by rw [h1 m, startPointAt_setComboRoad],
                 fun m n => by rw [h2 m n, stopsAt_setComboRoad],
                 h3, h4, h5, h6, h7, h8⟩

theorem roadsLoop_untouched (maxStops : Nat) (abortedBefore : Nat → Bool)
    (eventAt : Nat → FetchEvent) (nowStr : String) (nowAt : Nat → String) :
    ∀ (tasks : List RoadTask) (i : Nat) (cur run2 : TerritoryCalcRun) (m n : Nat),
      (roadsLoop maxStops abortedBefore eventAt nowStr nowAt
        tasks i cur).result = .ok run2 →
      (∀ t ∈ tasks, ¬(t.routeIdx = m ∧ t.comboIdx = n)) →
      comboAt run2 m n = comboAt cur m n := by
  intro tasks
  induction tasks with
  | nil =>
    intro i cur run2 m n h _
    have : cur = run2 := by simpa [roadsLoop] using h
    subst this
    rfl
  | cons t rest ih =>
    intro i cur run2 m n h hnot
    have hsetskip : ∀ (road : RoadResult),
        comboAt (setComboRoad cur t.routeIdx t.comboIdx road) m n
          = comboAt cur m n := by
      intro road
      rw [comboAt_setComboRoad]
      rw [if_neg]
      intro hcon
      exact hnot t (List.mem_cons_self t rest) ⟨hcon.1.symm, hcon.2.symm⟩
    have hrest : ∀ t2 ∈ rest, ¬(t2.routeIdx = m ∧ t2.comboIdx = n) :=
      fun t2 ht2 => hnot t2 (List.mem_cons_of_mem t ht2)
    by_cases habort : abortedBefore i
    · simp [roadsLoop, habort] at h
    · simp only [roadsLoop, habort, Bool.false_eq_true, if_false] at h
      split at h
      · rw [ih (i + 1) _ run2 m n h hrest, hsetskip]
      · cases hres : osrmRoute (taskCoords (cur.routes.getD t.routeIdx default)
            ((cur.routes.getD t.routeIdx default).combos.getD t.comboIdx default))
            25000 false (eventAt i) with
        | ok routeRes =>
          rw [hres] at h
          rw [ih (i + 1) _ run2 m n h hrest, hsetskip]
        | error e2 =>
          rw [hres] at h
          rw [ih (i + 1) _ run2 m n h hrest, hsetskip]

/-- The minutes invariant of a road result relative to the stop list of
its combo. -/
def roadInv (r : RoadResult) (stops : List TerritoryCalcStop) : Prop :=
  r.totalMinutes = r.driveMinutes + r.serviceMinutes
  ∧ r.serviceMinutes = sumVisitMinutes stops

theorem roadsLoop_inv (maxStops : Nat) (abortedBefore : Nat → Bool)
    (eventAt : Nat → FetchEvent) (nowStr : String) (nowAt : Nat → String) :
    ∀ (tasks : List RoadTask) (i : Nat) (cur run2 : TerritoryCalcRun),
      (∀ m n c r, comboAt cur m n = some c → c.road = some r → roadInv r c.stops) →
      (roadsLoop maxStops abortedBefore eventAt nowStr nowAt
        tasks i cur).result = .ok run2 →
      (∀ m n c r, comboAt run2 m n = some c → c.road = some r → roadInv r c.stops) := by
  intro tasks
  induction tasks with
  | nil =>
    intro i cur run2 hcur h
    have : cur = run2 := by simpa [roadsLoop] using h
    subst this
    exact hcur
  | cons t rest ih =>
    intro i cur run2 hcur h
    have hstep : ∀ (road : RoadResult),
        road.totalMinutes = road.driveMinutes + road.serviceMinutes →
        road.serviceMinutes = sumVisitMinutes
          ((cur.routes.getD t.routeIdx default).combos.getD t.comboIdx default).stops →
        ∀ m n c r,
          comboAt (setComboRoad cur t.routeIdx t.comboIdx road) m n = some c →
          c.road = some r → roadInv r c.stops := by
      intro road hti hsi m n c r hc hr
      rw [comboAt_setComboRoad] at hc
      by_cases hpos : m = t.routeIdx ∧ n = t.comboIdx
      · rw [if_pos hpos] at hc
        cases hc0 : comboAt cur m n with
        | none => rw [hc0] at hc; cases hc
        | some c0 =>
          rw [hc0] at hc
          have hceq : c = { c0 with road := some road } := by
            simpa using hc.symm
          subst hceq
          have hr2 : road = r := by simpa using hr
          subst hr2
          have hgd := comboAt_getD (show comboAt cur t.routeIdx t.comboIdx = some c0
            from hpos.1 ▸ hpos.2 ▸ hc0)
          constructor
          · exact hti
          · rw [hsi, hgd]
      · rw [if_neg hpos] at hc
        exact hcur m n c r hc hr
    by_cases habort : abortedBefore i
    · simp [roadsLoop, habort] at h
    · simp only [roadsLoop, habort, Bool.false_eq_true, if_false] at h
      split at h
      · exact ih (i + 1) _ run2 (hstep _ (by simp [skippedRoadResult]) rfl) h
      · cases hres : osrmRoute (taskCoords (cur.routes.getD t.routeIdx default)
            ((cur.routes.getD t.routeIdx default).combos.getD t.comboIdx default))
            25000 false (eventAt i) with
        | ok routeRes =>
          rw [hres] at h
          exact ih (i + 1) _ run2 (hstep _ rfl rfl) h
        | error e2 =>
          rw [hres] at h
          exact ih (i + 1) _ run2 (hstep _ (by simp [errorRoadResult]) rfl) h

theorem option_map_some_transport {α β : Type} {f : α → β} {a b : Option α}
    (h : a.map f = b.map f) {x : α} (ha : a = some x) :
    ∃ y, b = some y ∧ f y = f x := by
  subst ha
  cases b with
  | none => simp at h
  | some y => exact ⟨y, rfl, by simpa using h.symm⟩

theorem roadsLoop_skip (maxStops : Nat) (abortedBefore : Nat → Bool)
    (eventAt : Nat → FetchEvent) (nowStr : String) (nowAt : Nat → String) :
    ∀ (tasks : List RoadTask) (i : Nat) (cur run2 : TerritoryCalcRun) (m n : Nat)
      (S : List TerritoryCalcStop),
      (comboAt cur m n).map (fun c => c.stops) = some S →
      maxStops < S.length →
      (({ routeIdx := m, comboIdx := n } : RoadTask) ∈ tasks
        ∨ (∃ c, comboAt cur m n = some c
            ∧ c.road = some (skippedRoadResult maxStops nowStr (sumVisitMinutes S)))) →
      (roadsLoop maxStops abortedBefore eventAt nowStr nowAt
        tasks i cur).result = .ok run2 →
      ∃ c, comboAt run2 m n = some c ∧ c.stops = S
        ∧ c.road = some (skippedRoadResult maxStops nowStr (sumVisitMinutes S)) := by
  intro tasks
  induction tasks with
  | nil =>
    intro i cur run2 m n S hproj hbig hdisj h
    have hcr : cur = run2 := by simpa [roadsLoop] using h
    subst hcr
    rcases hdisj with hmem | ⟨c, hc, hroad⟩
    · simp at hmem
    · refine ⟨c, hc, ?_, hroad⟩
      rw [hc] at hproj
      simpa using hproj
  | cons t rest ih =>
    intro i cur run2 m n S hproj hbig hdisj h
    by_cases habort : abortedBefore i
    · simp [roadsLoop, habort] at h
    · simp only [roadsLoop, habort, Bool.false_eq_true, if_false] at h
      rcases hc0 : comboAt cur m n with _ | c0
      · rw [hc0] at hproj
        cases hproj
      · have hstops0 : c0.stops = S := by
          rw [hc0] at hproj
          simpa using hproj
        by_cases hteq : t.routeIdx = m ∧ t.comboIdx = n
        · have hgd : (cur.routes.getD t.routeIdx default).combos.getD
              t.comboIdx default = c0 :=
            comboAt_getD (show comboAt cur t.routeIdx t.comboIdx = some c0 by
              rw [hteq.1, hteq.2]; exact hc0)
          split at h
          · rename_i hsz
            have hsvc : sumVisitMinutes
                ((cur.routes.getD t.routeIdx default).combos.getD
                  t.comboIdx default).stops = sumVisitMinutes S := by
              rw [hgd, hstops0]
            rw [hsvc] at h
            refine ih (i + 1) _ run2 m n S ?_ hbig ?_ h
            · rw [stopsAt_setComboRoad, hc0]
              simpa using hstops0
            · right
              refine ⟨{ c0 with road := some (skippedRoadResult maxStops nowStr
                  (sumVisitMinutes S)) }, ?_, by simp⟩
              rw [comboAt_setComboRoad, if_pos ⟨hteq.1.symm, hteq.2.symm⟩, hc0]
              rfl
          · rename_i hsz
            exfalso
            rw [hgd, hstops0] at hsz
            omega
        · have hset : ∀ (road : RoadResult),
              comboAt (setComboRoad cur t.routeIdx t.comboIdx road) m n
                = comboAt cur m n := by
            intro road
            rw [comboAt_setComboRoad, if_neg]
            intro hcon
            exact hteq ⟨hcon.1.symm, hcon.2.symm⟩
          have hdisj2 : ∀ (road : RoadResult),
              ({ routeIdx := m, comboIdx := n } : RoadTask) ∈ rest
              ∨ (∃ c, comboAt (setComboRoad cur t.routeIdx t.comboIdx road) m n
                    = some c
                  ∧ c.road = some (skippedRoadResult maxStops nowStr
                      (sumVisitMinutes S))) := by
            intro road
            rcases hdisj with hmem | ⟨c, hc, hroad⟩
            · rcases List.mem_cons.mp hmem with heq | hmem2
              · exfalso
                apply hteq
                rw [← heq]
                exact ⟨rfl, rfl⟩
              · exact Or.inl hmem2
            · exact Or.inr ⟨c, by rw [hset]; exact hc, hroad⟩
          have hproj2 : ∀ (road : RoadResult),
              (comboAt (setComboRoad cur t.routeIdx t.comboIdx road) m n).map
                (fun c => c.stops) = some S := by
            intro road
            rw [stopsAt_setComboRoad]
            exact hproj
          split at h
          · exact ih (i + 1) _ run2 m n S (hproj2 _) hbig (hdisj2 _) h
          · cases hres : osrmRoute (taskCoords (cur.routes.getD t.routeIdx default)
                ((cur.routes.getD t.routeIdx default).combos.getD t.comboIdx default))
                25000 false (eventAt i) with
            | ok routeRes =>
              rw [hres] at h
              exact ih (i + 1) _ run2 m n S (hproj2 _) hbig (hdisj2 _) h
            | error e2 =>
              rw [hres] at h
              exact ih (i + 1) _ run2 m n S (hproj2 _) hbig (hdisj2 _) h

theorem roadsLoop_requests (maxStops : Nat) (abortedBefore : Nat → Bool)
    (eventAt : Nat → FetchEvent) (nowStr : String) (nowAt : Nat → String) :
    ∀ (tasks : List RoadTask) (i : Nat) (cur : TerritoryCalcRun),
      (∀ t2 ∈ tasks, ∃ rr c, routeAt cur t2.routeIdx = some rr
        ∧ comboAt cur t2.routeIdx t2.comboIdx = some c) →
      ∀ req ∈ (roadsLoop maxStops abortedBefore eventAt nowStr nowAt
          tasks i cur).requests,
        ∃ t2 ∈ tasks, ∃ rr c, routeAt cur t2.routeIdx = some rr
          ∧ comboAt cur t2.routeIdx t2.comboIdx = some c
          ∧ c.stops.length ≤ maxStops ∧ req = taskCoords rr c := by
  intro tasks
  induction tasks with
  | nil =>
    intro i cur hval req hreq
    simp [roadsLoop] at hreq
  | cons t rest ih =>
    intro i cur hval req hreq
    have hval2 : ∀ (road : RoadResult), ∀ t2 ∈ rest,
        ∃ rr c, routeAt (setComboRoad cur t.routeIdx t.comboIdx road)
            t2.routeIdx = some rr
          ∧ comboAt (setComboRoad cur t.routeIdx t.comboIdx road) t2.routeIdx
              t2.comboIdx = some c := by
      intro road t2 ht2
      rcases hval t2 (List.mem_cons_of_mem t ht2) with ⟨rr, c, hrr, hc⟩
      rcases option_map_some_transport
        (startPointAt_setComboRoad cur t.routeIdx t.comboIdx road t2.routeIdx).symm
        hrr with ⟨rr2, hrr2, _⟩
      rcases option_map_some_transport
        (stopsAt_setComboRoad cur t.routeIdx t.comboIdx road t2.routeIdx
          t2.comboIdx).symm hc with ⟨c2, hc2, _⟩
      exact ⟨rr2, c2, hrr2, hc2⟩
    have htrans : ∀ (road : RoadResult) (req2 : List (ℚ × ℚ)),
        (∃ t2 ∈ rest, ∃ rr c,
          routeAt (setComboRoad cur t.routeIdx t.comboIdx road) t2.routeIdx = some rr
          ∧ comboAt (setComboRoad cur t.routeIdx t.comboIdx road) t2.routeIdx
              t2.comboIdx = some c
          ∧ c.stops.length ≤ maxStops ∧ req2 = taskCoords rr c) →
        ∃ t2 ∈ t :: rest, ∃ rr c, routeAt cur t2.routeIdx = some rr
          ∧ comboAt cur t2.routeIdx t2.comboIdx = some c
          ∧ c.stops.length ≤ maxStops ∧ req2 = taskCoords rr c := by
      intro road req2 hx
      rcases hx with ⟨t2, ht2, rr, c, hrr, hc, hlen, heq⟩
      rcases option_map_some_transport
        (startPointAt_setComboRoad cur t.routeIdx t.comboIdx road t2.routeIdx) hrr
        with ⟨rr2, hrr2, hsp⟩
      rcases option_map_some_transport
        (stopsAt_setComboRoad cur t.routeIdx t.comboIdx road t2.routeIdx t2.comboIdx)
        hc with ⟨c2, hc2, hst⟩
      refine ⟨t2, List.mem_cons_of_mem t ht2, rr2, c2, hrr2, hc2, ?_, ?_⟩
      · rw [hst]
        exact hlen
      · rw [heq]
        exact taskCoords_congr hsp.symm hst.symm
    rcases hval t (List.mem_cons_self t rest) with ⟨rr0, c0, hrr0, hc0⟩
    have hgdr : cur.routes.getD t.routeIdx default = rr0 := routeAt_getD hrr0
    have hgdc : (cur.routes.getD t.routeIdx default).combos.getD
        t.comboIdx default = c0 := comboAt_getD hc0
    by_cases habort : abortedBefore i
    · simp [roadsLoop, habort] at hreq
    · simp only [roadsLoop, habort, Bool.false_eq_true, if_false] at hreq
      split at hreq
      · exact htrans _ req (ih (i + 1) _ (hval2 _) req hreq)
      · rename_i hsz
        rw [hgdc] at hsz
        cases hres : osrmRoute (taskCoords (cur.routes.getD t.routeIdx default)
            ((cur.routes.getD t.routeIdx default).combos.getD t.comboIdx default))
            25000 false (eventAt i) with
        | ok routeRes =>
          rw [hres] at hreq
          simp only [List.mem_cons] at hreq
          rcases hreq with heq | hreq2
          · refine ⟨t, List.mem_cons_self t rest, rr0, c0, hrr0, hc0,
              by omega, ?_⟩
            rw [heq, hgdc, hgdr]
          · exact htrans _ req (ih (i + 1) _ (hval2 _) req hreq2)
        | error e2 =>
          rw [hres] at hreq
          simp only [List.mem_cons] at hreq
          rcases hreq with heq | hreq2
          · refine ⟨t, List.mem_cons_self t rest, rr0, c0, hrr0, hc0,
              by omega, ?_⟩
            rw [heq, hgdc, hgdr]
          · exact htrans _ req (ih (i + 1) _ (hval2 _) req hreq2)

theorem mem_roadTasks_iff (run : TerritoryCalcRun) (t : RoadTask) :
    t ∈ roadTasks run
      ↔ ∃ c, comboAt run t.routeIdx t.comboIdx = some c
          ∧ comboNeedsRoad c = true ∧ c.stops ≠ [] := by
  unfold roadTasks
  rw [List.mem_flatMap]
  constructor
  · rintro ⟨rpair, hrmem, hin⟩
    rw [List.mem_filterMap] at hin
    rcases hin with ⟨cpair, hcmem, hsome⟩
    by_cases hcond : comboNeedsRoad cpair.2 && !(cpair.2.stops.length == 0)
    · rw [if_pos hcond] at hsome
      have ht : t = { routeIdx := rpair.1, comboIdx := cpair.1 } :=
        (Option.some.inj hsome).symm
      have hr := List.mem_enum_iff_get?.mp hrmem
      have hc := List.mem_enum_iff_get?.mp hcmem
      refine ⟨cpair.2, ?_, ?_, ?_⟩
      · rw [ht]
        unfold comboAt
        simp only []
        rw [hr]
        exact hc
      · exact (Bool.and_eq_true_iff.mp hcond).1
      · have h2 := (Bool.and_eq_true_iff.mp hcond).2
        simp only [Bool.not_eq_eq_eq_not, Bool.not_true, beq_eq_false_iff_ne] at h2
        intro hnil
        exact h2 (by rw [hnil]; rfl)
    · rw [if_neg hcond] at hsome
      cases hsome
  · rintro ⟨c, hc, hneed, hne⟩
    unfold comboAt at hc
    cases hr : run.routes.get? t.routeIdx with
    | none => rw [hr] at hc; cases hc
    | some rr =>
      rw [hr] at hc
      have hcg : rr.combos.get? t.comboIdx = some c := hc
      refine ⟨(t.routeIdx, rr), List.mem_enum_iff_get?.mpr hr, ?_⟩
      rw [List.mem_filterMap]
      refine ⟨(t.comboIdx, c), List.mem_enum_iff_get?.mpr hcg, ?_⟩
      have hcond : (comboNeedsRoad c && !(c.stops.length == 0)) = true := by
        rw [Bool.and_eq_true_iff]
        refine ⟨hneed, ?_⟩
        simp only [Bool.not_eq_eq_eq_not, Bool.not_true, beq_eq_false_iff_ne]
        intro hz
        exact hne (List.length_eq_zero.mp (by simpa using hz))
      rw [if_pos hcond]

theorem mkStraightCombo_inv (dist : ℚ → ℚ → ℚ → ℚ → ℚ) (start : StartPointInfo)
    (orderMode : RoadMileageOrderMode) (weekOffset isoWeek displayWeek : Int)
    (weekKey dayCode dayLabel : String) (ordered : List Point) :
    (mkStraightCombo dist start orderMode weekOffset isoWeek displayWeek
      weekKey dayCode dayLabel ordered).straight.totalMinutes
      = (mkStraightCombo dist start orderMode weekOffset isoWeek displayWeek
          weekKey dayCode dayLabel ordered).straight.driveMinutes
        + (mkStraightCombo dist start orderMode weekOffset isoWeek displayWeek
            weekKey dayCode dayLabel ordered).straight.serviceMinutes
    ∧ (mkStraightCombo dist start orderMode weekOffset isoWeek displayWeek
        weekKey dayCode dayLabel ordered).straight.serviceMinutes
      = sumVisitMinutes (mkStraightCombo dist start orderMode weekOffset isoWeek
          displayWeek weekKey dayCode dayLabel ordered).stops
    ∧ (mkStraightCombo dist start orderMode weekOffset isoWeek displayWeek
        weekKey dayCode dayLabel ordered).road = none :=
  ⟨rfl, rfl, rfl⟩

theorem comboCells_combo (dist : ℚ → ℚ → ℚ → ℚ → ℚ) (isoWeekOfOffset : Int → Int)
    (dayLabelOf : String → Option String) (orderMode : RoadMileageOrderMode)
    (weekOffsets : List Int) (dayCodes : List String) (start : StartPointInfo)
    (routePointsAll : List Point) :
    ∀ pr ∈ comboCells dist isoWeekOfOffset dayLabelOf orderMode weekOffsets
        dayCodes start routePointsAll,
      ∃ weekOffset isoWeek displayWeek weekKey dayCode dayLabel ordered,
        pr.1 = mkStraightCombo dist start orderMode weekOffset isoWeek displayWeek
          weekKey dayCode dayLabel ordered := by
  intro pr hpr
  unfold comboCells at hpr
  rw [List.mem_flatMap] at hpr
  rcases hpr with ⟨weekOffset, _, hpr⟩
  rw [List.mem_filterMap] at hpr
  rcases hpr with ⟨dayCode, _, hsome⟩
  simp only [] at hsome
  by_cases hz : (List.filter (fun p => p.visitDayCode == dayCode)
      (List.filter (fun p => pointMatchesCycleWeek p.frequencyCode
        (isoWeekOfOffset weekOffset)) routePointsAll)).length = 0
  · rw [if_pos hz] at hsome
    cases hsome
  · rw [if_neg hz] at hsome
    have heq := Option.some.inj hsome
    refine ⟨weekOffset, isoWeekOfOffset weekOffset,
      (if isoWeekOfOffset weekOffset > 52 then isoWeekOfOffset weekOffset - 52
        else isoWeekOfOffset weekOffset),
      getWeekKeyFromIsoWeek (isoWeekOfOffset weekOffset), dayCode,
      (dayLabelOf dayCode).getD dayCode,
      buildOrder dist orderMode (getWeekKeyFromIsoWeek (isoWeekOfOffset weekOffset))
        start.lat start.lon
        (List.filter (fun p => p.visitDayCode == dayCode)
          (List.filter (fun p => pointMatchesCycleWeek p.frequencyCode
            (isoWeekOfOffset weekOffset)) routePointsAll)), ?_⟩
    rw [← heq]

/-- C6: every produced per-combination result satisfies
`totalMinutes = driveMinutes + serviceMinutes` and
`serviceMinutes = Σ stop.visitMinutes`.  Part one: every combo produced by
`buildTerritoryRun` satisfies it for its straight-line block (and has no
road block yet).  Part two: `computeTerritoryRunRoads` preserves and
establishes the invariant for every road block — `ok`, `error` and
`skipped` alike — relative to the stops of its combo. -/
theorem minutes_invariant_spec :
    (∀ (dist : ℚ → ℚ → ℚ → ℚ → ℚ) (isoWeekOfOffset : Int → Int)
        (dayLabelOf : String → Option String) (runId createdAt : String)
        (visiblePoints : List Point)
        (startByRoute : List (String × StartPointInfo))
        (activeRoutes dayCodes : List String) (weekOffsets : List Int)
        (orderMode : RoadMileageOrderMode) (filtersSnapshot : FiltersSnapshot),
      ∀ rr ∈ (buildTerritoryRun dist isoWeekOfOffset dayLabelOf runId createdAt
          visiblePoints startByRoute activeRoutes dayCodes weekOffsets orderMode
          filtersSnapshot).1.routes,
        ∀ c ∈ rr.combos,
          c.straight.totalMinutes
            = c.straight.driveMinutes + c.straight.serviceMinutes
          ∧ c.straight.serviceMinutes = sumVisitMinutes c.stops
          ∧ c.road = none)
    ∧ (∀ (maxStops : Nat) (abortedBefore : Nat → Bool)
        (eventAt : Nat → FetchEvent) (nowStr : String) (nowAt : Nat → String)
        (run run2 : TerritoryCalcRun),
        (∀ m n c r, comboAt run m n = some c → c.road = some r →
          roadInv r c.stops) →
        (computeTerritoryRunRoads maxStops abortedBefore eventAt nowStr nowAt
          run).result = .ok run2 →
        ∀ m n c r, comboAt run2 m n = some c → c.road = some r →
          roadInv r c.stops) := by
  constructor
  · intro dist isoWeekOfOffset dayLabelOf runId createdAt visiblePoints
      startByRoute activeRoutes dayCodes weekOffsets orderMode filtersSnapshot
      rr hrr c hc
    unfold buildTerritoryRun at hrr
    simp only [] at hrr
    rw [List.mem_map] at hrr
    rcases hrr with ⟨pair, hpair, hrr⟩
    rw [List.mem_filterMap] at hpair
    rcases hpair with ⟨route, _, hsome⟩
    cases hlk : (startByRoute.lookup route) with
    | none => rw [hlk] at hsome; cases hsome
    | some start =>
      rw [hlk] at hsome
      have hp := Option.some.inj hsome
      have hcombos : rr.combos = ((comboCells dist isoWeekOfOffset dayLabelOf
          orderMode weekOffsets dayCodes start
          (visiblePoints.filter (fun p => p.route == route))).map
            Prod.fst).insertionSort comboSortRel := by
        rw [← hrr, ← hp]
      rw [hcombos] at hc
      have hc2 : c ∈ (comboCells dist isoWeekOfOffset dayLabelOf orderMode
          weekOffsets dayCodes start
          (visiblePoints.filter (fun p => p.route == route))).map Prod.fst :=
        (List.perm_insertionSort comboSortRel _).mem_iff.mp hc
      rw [List.mem_map] at hc2
      rcases hc2 with ⟨cell, hcell, hcval⟩
      rcases comboCells_combo dist isoWeekOfOffset dayLabelOf orderMode
        weekOffsets dayCodes start _ cell hcell with
        ⟨a, b, d, e, f, g, ordered, hcm⟩
      rw [← hcval, hcm]
      exact mkStraightCombo_inv dist start orderMode a b d e f g ordered
  · intro maxStops abortedBefore eventAt nowStr nowAt run run2 hin hres
    unfold computeTerritoryRunRoads at hres
    simp only [] at hres
    by_cases hz : (roadTasks run).length = 0
    · rw [if_pos hz] at hres
      have : run = run2 := by simpa using hres
      subst this
      exact hin
    · rw [if_neg hz] at hres
      exact roadsLoop_inv maxStops abortedBefore eventAt nowStr nowAt
        (roadTasks run) 0 run run2 hin hres

def wStop1 : TerritoryCalcStop :=
  { pointId := "p1", clientCode := "c1", name := "n1", address := "",
    lat := 1, lon := 1, visitMinutes := 15 }

def wCombo1 : TerritoryCalcCombo :=
  { weekOffset := 0, isoWeek := 10, displayWeek := 10, weekKey := "2",
    dayCode := "1", dayLabel := "ПН", orderMode := .rebuildNearest,
    stops := [wStop1],
    straight :=
      { distanceKm := 0, driveMinutes := 0, serviceMinutes := 15,
        totalMinutes := 15, segments := [] },
    road := none }

def wRoute1 : TerritoryCalcRoute :=
  { route := "R1", startPoint := { lat := 0, lon := 0, address := "base" },
    combos := [wCombo1] }

def wRun1 : TerritoryCalcRun :=
  { id := "run1", createdAt := "t0", orderMode := .rebuildNearest,
    orderSaved := false,
    filtersSnapshot :=
      { routes := [], branches := [], days := [], cycleWeeks := [] },
    missingStartRoutes := [], routes := [wRoute1] }

theorem wRun1_roadInv :
    ∀ m n c r, comboAt wRun1 m n = some c → c.road = some r →
      roadInv r c.stops := by
  intro m n c r hc hr
  match m, n with
  | 0, 0 =>
    have hce : c = wCombo1 := by
      simpa [comboAt, wRun1, wRoute1] using hc.symm
    subst hce
    simp [wCombo1] at hr
  | 0, n2 + 1 => simp [comboAt, wRun1, wRoute1] at hc
  | m2 + 1, n => simp [comboAt, wRun1] at hc

/-- Concrete instance of `minutes_invariant_spec`: a run with one combo of
one 15-minute stop, computed with a ceiling of 0, is marked `skipped` and
its road block satisfies the minutes invariant. -/
theorem minutes_invariant_spec_witness :
    roadInv (skippedRoadResult 0 "now" 15) [wStop1] :=
  minutes_invariant_spec.2 0 (fun _ => false) (fun _ => .externalAbort) "now"
    (fun _ => "now") wRun1
    (setComboRoad wRun1 0 0 (skippedRoadResult 0 "now" 15))
    wRun1_roadInv (by decide) 0 0
    { wCombo1 with road := some (skippedRoadResult 0 "now" 15) }
    (skippedRoadResult 0 "now" 15) (by decide) (by decide)

/-- C8: when no cancellation occurs, the road computation completes
(`.ok`), every combo whose due-stop count exceeds the configured ceiling
is marked with the exact `skipped` road record — zero drive km, zero
drive minutes, `totalMinutes = serviceMinutes` — and every network
request that was issued belongs to a combo within the ceiling, so an
oversized combo is never submitted to the provider.  The default ceiling
is 25. -/
theorem size_guard_spec (maxStops : Nat) (abortedBefore : Nat → Bool)
    (eventAt : Nat → FetchEvent) (nowStr : String) (nowAt : Nat → String)
    (run : TerritoryCalcRun) (hno : ∀ j, abortedBefore j = false) :
    (∃ run2, (computeTerritoryRunRoads maxStops abortedBefore eventAt nowStr
        nowAt run).result = .ok run2
      ∧ ∀ m n c, comboAt run m n = some c → comboNeedsRoad c = true →
          c.stops ≠ [] → maxStops < c.stops.length →
          ∃ c2, comboAt run2 m n = some c2 ∧ c2.stops = c.stops
            ∧ c2.road = some (skippedRoadResult maxStops nowStr
                (sumVisitMinutes c.stops)))
    ∧ (∀ req ∈ (computeTerritoryRunRoads maxStops abortedBefore eventAt nowStr
          nowAt run).requests,
        ∃ t ∈ roadTasks run, ∃ rr c2, routeAt run t.routeIdx = some rr
          ∧ comboAt run t.routeIdx t.comboIdx = some c2
          ∧ c2.stops.length ≤ maxStops ∧ req = taskCoords rr c2)
    ∧ (∀ ms ns sm, (skippedRoadResult ms ns sm).driveKm = 0
        ∧ (skippedRoadResult ms ns sm).driveMinutes = 0
        ∧ (skippedRoadResult ms ns sm).totalMinutes
          = (skippedRoadResult ms ns sm).serviceMinutes
        ∧ (skippedRoadResult ms ns sm).status = .skipped)
    ∧ DEFAULT_MAX_STOPS_PER_COMBO = 25 := by
  have hval : ∀ t2 ∈ roadTasks run, ∃ rr c, routeAt run t2.routeIdx = some rr
      ∧ comboAt run t2.routeIdx t2.comboIdx = some c := by
    intro t2 ht2
    rcases (mem_roadTasks_iff run t2).mp ht2 with ⟨c, hc, _, _⟩
    unfold comboAt at hc
    cases hr : run.routes.get? t2.routeIdx with
    | none => rw [hr] at hc; cases hc
    | some rr =>
      rw [hr] at hc
      exact ⟨rr, c, hr, by unfold comboAt; rw [hr]; exact hc⟩
  refine ⟨?_, ?_, fun ms ns sm => ⟨rfl, rfl, rfl, rfl⟩, rfl⟩
  · unfold computeTerritoryRunRoads
    simp only []
    by_cases hz : (roadTasks run).length = 0
    · rw [if_pos hz]
      refine ⟨run, rfl, ?_⟩
      intro m n c hc hneed hne hbig
      exfalso
      have hmem : ({ routeIdx := m, comboIdx := n } : RoadTask) ∈ roadTasks run :=
        (mem_roadTasks_iff run _).mpr ⟨c, hc, hneed, hne⟩
      rw [List.length_eq_zero.mp hz] at hmem
      simp at hmem
    · rw [if_neg hz]
      rcases roadsLoop_completes maxStops abortedBefore eventAt nowStr nowAt hno
        (roadTasks run) 0 run with ⟨run2, hrun2⟩
      refine ⟨run2, hrun2, ?_⟩
      intro m n c hc hneed hne hbig
      have hmem : ({ routeIdx := m, comboIdx := n } : RoadTask) ∈ roadTasks run :=
        (mem_roadTasks_iff run _).mpr ⟨c, hc, hneed, hne⟩
      rcases roadsLoop_skip maxStops abortedBefore eventAt nowStr nowAt
        (roadTasks run) 0 run run2 m n c.stops (by rw [hc]; rfl) hbig
        (Or.inl hmem) hrun2 with ⟨c2, hc2, hst2, hroad2⟩
      exact ⟨c2, hc2, hst2, hroad2⟩
  · unfold computeTerritoryRunRoads
    simp only []
    by_cases hz : (roadTasks run).length = 0
    · rw [if_pos hz]
      intro req hreq
      simp at hreq
    · rw [if_neg hz]
      exact roadsLoop_requests maxStops abortedBefore eventAt nowStr nowAt
        (roadTasks run) 0 run hval

/-- C10: `computeTerritoryRunRoads` treats its input as read-only — the
embedding is a pure function, and the returned run agrees with the input
on every field except the `road` blocks of the combos (ids, timestamps,
filters, start points and stop lists are all preserved).  A combo whose
existing road result has status `ok` is never in the task list, is carried
over unchanged into the result, and every network request issued belongs
to a task of the task list — so an `ok` combo is not re-requested. -/
theorem road_frame_spec (maxStops : Nat) (abortedBefore : Nat → Bool)
    (eventAt : Nat → FetchEvent) (nowStr : String) (nowAt : Nat → String)
    (run : TerritoryCalcRun) :
    (∀ run2, (computeTerritoryRunRoads maxStops abortedBefore eventAt nowStr
        nowAt run).result = .ok run2 →
      run2.id = run.id ∧ run2.createdAt = run.createdAt
      ∧ run2.orderMode = run.orderMode ∧ run2.orderSaved = run.orderSaved
      ∧ run2.filtersSnapshot = run.filtersSnapshot
      ∧ run2.missingStartRoutes = run.missingStartRoutes
      ∧ (∀ m, (routeAt run2 m).map (fun rr => rr.startPoint)
          = (routeAt run m).map (fun rr => rr.startPoint))
      ∧ (∀ m n, (comboAt run2 m n).map (fun c => c.stops)
          = (comboAt run m n).map (fun c => c.stops)))
    ∧ (∀ m n c r, comboAt run m n = some c → c.road = some r →
        r.status = .ok →
        ({ routeIdx := m, comboIdx := n } : RoadTask) ∉ roadTasks run
        ∧ ∀ run2, (computeTerritoryRunRoads maxStops abortedBefore eventAt
            nowStr nowAt run).result = .ok run2 →
            comboAt run2 m n = some c)
    ∧ (∀ req ∈ (computeTerritoryRunRoads maxStops abortedBefore eventAt nowStr
          nowAt run).requests,
        ∃ t ∈ roadTasks run, req = taskCoords
          (run.routes.getD t.routeIdx default)
          ((run.routes.getD t.routeIdx default).combos.getD t.comboIdx default)) := by
  have hnotin : ∀ m n c r, comboAt run m n = some c → c.road = some r →
      r.status = .ok →
      ({ routeIdx := m, comboIdx := n } : RoadTask) ∉ roadTasks run := by
    intro m n c r hc hr hst hmem
    rcases (mem_roadTasks_iff run _).mp hmem with ⟨c2, hc2, hneed, _⟩
    have : c2 = c := by
      rw [hc] at hc2
      exact (Option.some.inj hc2).symm
    subst this
    simp only [comboNeedsRoad, hr] at hneed
    rw [hst] at hneed
    simp at hneed
  refine ⟨?_, ?_, ?_⟩
  · intro run2 hres
    unfold computeTerritoryRunRoads at hres
    simp only [] at hres
    by_cases hz : (roadTasks run).length = 0
    · rw [if_pos hz] at hres
      have : run = run2 := by simpa using hres
      subst this
      exact ⟨rfl, rfl, rfl, rfl, rfl, rfl, fun m => rfl, fun m n => rfl⟩
    · rw [if_neg hz] at hres
      rcases roadsLoop_frame maxStops abortedBefore eventAt nowStr nowAt
        (roadTasks run) 0 run run2 hres with ⟨h1, h2, h3, h4, h5, h6, h7, h8⟩
      exact ⟨h3, h4, h5, h6, h7, h8, h1, h2⟩
  · intro m n c r hc hr hst
    refine ⟨hnotin m n c r hc hr hst, ?_⟩
    intro run2 hres
    unfold computeTerritoryRunRoads at hres
    simp only [] at hres
    by_cases hz : (roadTasks run).length = 0
    · rw [if_pos hz] at hres
      have : run = run2 := by simpa using hres
      subst this
      exact hc
    · rw [if_neg hz] at hres
      rw [roadsLoop_untouched maxStops abortedBefore eventAt nowStr nowAt
        (roadTasks run) 0 run run2 m n hres ?_]
      · exact hc
      · intro t ht hcon
        apply hnotin m n c r hc hr hst
        have : t = { routeIdx := m, comboIdx := n } := by
          cases t
          simp only [] at hcon
          rw [hcon.1, hcon.2]
        rw [← this]
        exact ht
  · intro req hreq
    unfold computeTerritoryRunRoads at hreq
    simp only [] at hreq
    by_cases hz : (roadTasks run).length = 0
    · rw [if_pos hz] at hreq
      simp at hreq
    · rw [if_neg hz] at hreq
      have hval : ∀ t2 ∈ roadTasks run, ∃ rr c, routeAt run t2.routeIdx = some rr
          ∧ comboAt run t2.routeIdx t2.comboIdx = some c := by
        intro t2 ht2
        rcases (mem_roadTasks_iff run t2).mp ht2 with ⟨c2, hc2, _, _⟩
        unfold comboAt at hc2
        cases hr2 : run.routes.get? t2.routeIdx with
        | none => rw [hr2] at hc2; cases hc2
        | some rr =>
          rw [hr2] at hc2
          exact ⟨rr, c2, hr2, by unfold comboAt; rw [hr2]; exact hc2⟩
      rcases roadsLoop_requests maxStops abortedBefore eventAt nowStr nowAt
        (roadTasks run) 0 run hval req hreq with
        ⟨t, ht, rr, c2, hrr, hc2, _, heq⟩
      refine ⟨t, ht, ?_⟩
      rw [heq, comboAt_getD hc2, routeAt_getD hrr]

/-- Concrete instance of `size_guard_spec`: one combo with one stop and a
ceiling of 0 — the combo is marked `skipped`, no request is issued, and
the skipped record carries zero drive figures. -/
theorem size_guard_spec_witness :
    (computeTerritoryRunRoads 0 (fun _ => false) (fun _ => .externalAbort)
      "now" (fun _ => "now") wRun1).result
      = .ok (setComboRoad wRun1 0 0 (skippedRoadResult 0 "now" 15))
    ∧ (computeTerritoryRunRoads 0 (fun _ => false) (fun _ => .externalAbort)
        "now" (fun _ => "now") wRun1).requests = []
    ∧ (skippedRoadResult 0 "now" 15).totalMinutes
      = (skippedRoadResult 0 "now" 15).serviceMinutes
    ∧ DEFAULT_MAX_STOPS_PER_COMBO = 25 :=
  ⟨by decide, by decide,
    ((size_guard_spec 0 (fun _ => false) (fun _ => .externalAbort) "now"
      (fun _ => "now") wRun1 (fun _ => rfl)).2.2.1 0 "now" 15).2.2.1,
    (size_guard_spec 0 (fun _ => false) (fun _ => .externalAbort) "now"
      (fun _ => "now") wRun1 (fun _ => rfl)).2.2.2⟩

def wRoadOk : RoadResult :=
  { calcProvider := "osrm", computedAt := "t1", status := .ok,
    errorMessage := none, driveKm := 1, driveMinutes := 10,
    serviceMinutes := 15, totalMinutes := 25, legs := [] }

def wComboOk : TerritoryCalcCombo := { wCombo1 with road := some wRoadOk }

def wRunOk : TerritoryCalcRun :=
  { wRun1 with routes := [{ wRoute1 with combos := [wComboOk] }] }

/-- Concrete instance of `road_frame_spec`: a combo whose road result is
already `ok` is not a task and is carried over unchanged. -/
theorem road_frame_spec_witness :
    ({ routeIdx := 0, comboIdx := 0 } : RoadTask) ∉ roadTasks wRunOk
    ∧ comboAt wRunOk 0 0 = some wComboOk :=
  ⟨((road_frame_spec 25 (fun _ => false) (fun _ => .externalAbort) "t"
      (fun _ => "t") wRunOk).2.1 0 0 wComboOk wRoadOk (by decide) (by decide)
      (by decide)).1,
    ((road_frame_spec 25 (fun _ => false) (fun _ => .externalAbort) "t"
      (fun _ => "t") wRunOk).2.1 0 0 wComboOk wRoadOk (by decide) (by decide)
      (by decide)).2 wRunOk (by decide)⟩

/-! ## Section-scope calculation (`RoadMileageModal.tsx`, `run`,
`saveWithOrder`).

The loop (lines 337-450) has no cancellation check of its own: the only
cancellation point is the in-flight `osrmRoute` call, whose exception
lands in the `catch` (lines 462-469).  `setDraftReports`/`setDraftOrders`
run only after the whole loop (lines 452-461), so any failure discards
all reports built so far.  UI side state (progress, road track, marker
numbers) is not modelled.  The TS field names `from`/`to` of a leg are
embedded as `legFrom`/`legTo`. -/

structure RoadMileageStop where
  pointId : String
  clientCode : String
  name : String
  lat : ℚ
  lon : ℚ
  visitMinutes : Int
deriving DecidableEq, Inhabited

inductive LegEndpoint where
  | start (label : String)
  | point (pid : Option String) (label : String)
deriving DecidableEq

structure RoadMileageLeg where
  legFrom : LegEndpoint
  legTo : LegEndpoint
  distanceKm : ℚ
  driveMinutes : Int
deriving DecidableEq

structure RoadMileageReport where
  id : String
  createdAt : String
  calcProvider : String
  calcProfile : String
  route : String
  dayCode : String
  dayLabel : String
  weekKey : String
  isoWeek : Int
  orderMode : RoadMileageOrderMode
  orderSaved : Bool
  startLat : ℚ
  startLon : ℚ
  startAddress : String
  stops : List RoadMileageStop
  driveKm : ℚ
  driveMinutes : Int
  serviceMinutes : Int
  totalMinutes : Int
  legs : List RoadMileageLeg
  geometry : Option (List (ℚ × ℚ))
deriving DecidableEq

/-- One entry of the `tasks` memo (RoadMileageModal.tsx:35-43). -/
structure ModalTask where
  route : String
  dayCode : String
  dayLabel : String
  weekOffset : Int
  isoWeek : Int
  weekKey : String
  points : List Point
deriving DecidableEq, Inhabited

/-- Set key `k` of a JS-object-like association list (overwrite in place,
append at the end when absent). -/
def recordSet : List (String × β) → String → β → List (String × β)
  | [], k, v => [(k, v)]
  | (k1, v1) :: rest, k, v =>
    if k1 = k then (k1, v) :: rest else (k1, v1) :: recordSet rest k v

/-- `if (!ordersByPointId[pid]) ordersByPointId[pid] = {};
ordersByPointId[pid][weekKey] = n` (RoadMileageModal.tsx:350-354). -/
def ordersInsert (orders : List (String × List (String × Int)))
    (pid weekKey : String) (n : Int) : List (String × List (String × Int)) :=
  match orders.lookup pid with
  | none => orders ++ [(pid, [(weekKey, n)])]
  | some inner => recordSet orders pid (recordSet inner weekKey n)

/-- Record the 1-based positions of the ordered points for `weekKey`. -/
def ordersAdd (orders : List (String × List (String × Int)))
    (ordered : List Point) (weekKey : String) :
    List (String × List (String × Int)) :=
  ordered.enum.foldl
    (fun acc ip => ordersInsert acc ip.2.id weekKey (ip.1 + 1)) orders

/-- `ordered[i]?.name || ordered[i]?.clientCode || ''`. -/
def modalPointLabel (ordered : List Point) (i : Nat) : String :=
  match ordered.get? i with
  | none => ""
  | some p =>
    if p.name = "" then (if p.clientCode = "" then "" else p.clientCode)
    else p.name

/-- The report built for one task (RoadMileageModal.tsx:356-441). -/
def mkModalReport (uid createdAt : String) (orderMode : RoadMileageOrderMode)
    (startPoint : StartPointInfo) (sectionRoute : String) (wantTrack : Bool)
    (t : ModalTask) (ordered : List Point) (routeRes : OsrmRouteData) :
    RoadMileageReport :=
  let driveKm := round1 (routeRes.distance / 1000)
  let driveMinutes := toIntMinutes (routeRes.duration / 60)
  let serviceMinutes := ordered.foldl
    (fun s p => s + normalizeVisitMinutes p.visitMinutes) 0
  let totalMinutes := driveMinutes + serviceMinutes
  let startLabel := "Старт: "
    ++ (if startPoint.address = "" then sectionRoute else startPoint.address)
  let legs := routeRes.legs.enum.map (fun ip =>
    { legFrom := if ip.1 = 0 then .start startLabel
        else .point ((ordered.get? (ip.1 - 1)).map (fun p => p.id))
          (modalPointLabel ordered (ip.1 - 1)),
      legTo := if ip.1 = ordered.length then .start startLabel
        else .point ((ordered.get? ip.1).map (fun p => p.id))
          (modalPointLabel ordered ip.1),
      distanceKm := round1 (ip.2.distance / 1000),
      driveMinutes := toIntMinutes (ip.2.duration / 60) })
  let geometry := if wantTrack then
      (routeRes.geometry).map (fun g => g.coordinates.map (fun c => (c.2, c.1)))
    else none
  { id := uid, createdAt := createdAt, calcProvider := "osrm",
    calcProfile := "driving", route := t.route, dayCode := t.dayCode,
    dayLabel := t.dayLabel, weekKey := t.weekKey, isoWeek := t.isoWeek,
    orderMode := orderMode, orderSaved := false,
    startLat := startPoint.lat, startLon := startPoint.lon,
    startAddress := startPoint.address,
    stops := ordered.map (fun p =>
      { pointId := p.id, clientCode := p.clientCode, name := p.name,
        lat := p.lat, lon := p.lon,
        visitMinutes := normalizeVisitMinutes p.visitMinutes }),
    driveKm := driveKm, driveMinutes := driveMinutes,
    serviceMinutes := serviceMinutes, totalMinutes := totalMinutes,
    legs := legs, geometry := geometry }

/-- The observable outcome of the modal `run`: the error message, and the
draft states (published only when the whole loop succeeded). -/
structure ModalRunOutcome where
  error : String
  draftReports : Option (List RoadMileageReport)
  draftOrders : Option (List (String × List (String × Int)))
deriving DecidableEq

/-- The `for` loop of `run` (RoadMileageModal.tsx:337-450) together with
its surrounding `try`/`catch`: on success of every task the drafts are
published; the first thrown error ends the run, with an `AbortError`
reported as user cancellation and any other error by its message, and no
drafts published. -/
def modalLoop (dist : ℚ → ℚ → ℚ → ℚ → ℚ) (orderMode : RoadMileageOrderMode)
    (startPoint : StartPointInfo) (sectionRoute : String) (wantTrack : Bool)
    (uidOf createdAtOf : Nat → String) (abortedAtCall : Nat → Bool)
    (eventAt : Nat → FetchEvent) :
    List ModalTask → Nat → List RoadMileageReport →
    List (String × List (String × Int)) → ModalRunOutcome
  | [], _, reports, orders =>
    { error := "", draftReports := some reports, draftOrders := some orders }
  | t :: rest, idx, reports, orders =>
    let ordered := buildOrder dist orderMode t.weekKey startPoint.lat
      startPoint.lon t.points
    let orders2 := ordersAdd orders ordered t.weekKey
    let coords := (startPoint.lat, startPoint.lon)
      :: (ordered.map (fun p => (p.lat, p.lon))
          ++ [(startPoint.lat, startPoint.lon)])
    match osrmRoute coords DEFAULT_OSRM_TIMEOUT_MS (abortedAtCall idx)
        (eventAt idx) with
    | .error .abortError =>
      { error := "Расчёт отменён пользователем.", draftReports := none,
        draftOrders := none }
    | .error (.error m) =>
      { error := m, draftReports := none, draftOrders := none }
    | .ok routeRes =>
      modalLoop dist orderMode startPoint sectionRoute wantTrack uidOf
        createdAtOf abortedAtCall eventAt rest (idx + 1)
        (reports ++ [mkModalReport (uidOf idx) (createdAtOf idx) orderMode
          startPoint sectionRoute wantTrack t ordered routeRes]) orders2

def runRoadMileageModal (dist : ℚ → ℚ → ℚ → ℚ → ℚ)
    (orderMode : RoadMileageOrderMode) (startPoint : StartPointInfo)
    (sectionRoute : String) (wantTrack : Bool)
    (uidOf createdAtOf : Nat → String) (abortedAtCall : Nat → Bool)
    (eventAt : Nat → FetchEvent) (tasks : List ModalTask) : ModalRunOutcome :=
  modalLoop dist orderMode startPoint sectionRoute wantTrack uidOf createdAtOf
    abortedAtCall eventAt tasks 0 [] []

/-- `{...(p.visitOrderByWeek || {}), ...upd}`: merge the update into the
per-cycle-slot rank record. -/
def recordMergeQ (old : List (String × ℚ)) (upd : List (String × Int)) :
    List (String × ℚ) :=
  upd.foldl (fun acc kv => recordSet acc kv.1 (kv.2 : ℚ)) old

/-- `saveWithOrder` (RoadMileageModal.tsx:485-511): only with published
drafts does it write ranks into the locations; otherwise the location
list is untouched. -/
def saveWithOrder (points : List Point)
    (draftReports : Option (List RoadMileageReport))
    (draftOrders : Option (List (String × List (String × Int)))) :
    List Point :=
  match draftReports, draftOrders with
  | some reports, some orders =>
    if reports.length = 0 then points
    else points.map (fun p =>
      match orders.lookup p.id with
      | none => p
      | some upd => { p with visitOrderByWeek := recordMergeQ p.visitOrderByWeek upd })
  | _, _ => points

theorem scanBest_singleton (f : Point → ℚ) (p : Point) : scanBest f [p] = 0 := rfl

theorem greedy_singleton (dist : ℚ → ℚ → ℚ → ℚ → ℚ) (a b : ℚ) (p : Point) :
    greedy dist a b [p] = [p] := by
  rw [greedy_of_ne dist a b (by simp)]
  rw [scanBest_singleton]
  simp [List.getD, greedy_nil]

/-- `osrmRoute` on a start-stops-start coordinate list (always at least
two entries) rejects with the `AbortError` itself when the external
signal is aborted, whether before the call or during it. -/
theorem osrmRoute_abortError (a : ℚ × ℚ) (l : List (ℚ × ℚ)) (b : ℚ × ℚ)
    (ms : Nat) (ab : Bool) (ev : FetchEvent)
    (h : ab = true ∨ ev = FetchEvent.externalAbort) :
    osrmRoute (a :: (l ++ [b])) ms ab ev = .error .abortError := by
  have hlen : ¬ (a :: (l ++ [b])).length < 2 := by
    simp only [List.length_cons, List.length_append, List.length_singleton]
    omega
  unfold osrmRoute
  rw [if_neg hlen]
  rcases h with hab | hev
  · rw [hab]
    simp
  · cases ab
    · simp only [Bool.false_eq_true, if_false, hev]
    · simp

/-- The modal loop never publishes a strict prefix of the reports: either
it ran every task to completion (empty error message) or both drafts stay
`null`. -/
theorem modalLoop_no_partial (dist : ℚ → ℚ → ℚ → ℚ → ℚ)
    (orderMode : RoadMileageOrderMode) (startPoint : StartPointInfo)
    (sectionRoute : String) (wantTrack : Bool)
    (uidOf createdAtOf : Nat → String) (abortedAtCall : Nat → Bool)
    (eventAt : Nat → FetchEvent) :
    ∀ (tasks : List ModalTask) (idx : Nat)
      (reports : List RoadMileageReport)
      (orders : List (String × List (String × Int))),
      (modalLoop dist orderMode startPoint sectionRoute wantTrack uidOf
          createdAtOf abortedAtCall eventAt tasks idx reports orders).error = ""
      ∨ ((modalLoop dist orderMode startPoint sectionRoute wantTrack uidOf
            createdAtOf abortedAtCall eventAt tasks idx reports
            orders).draftReports = none
        ∧ (modalLoop dist orderMode startPoint sectionRoute wantTrack uidOf
            createdAtOf abortedAtCall eventAt tasks idx reports
            orders).draftOrders = none) := by
  intro tasks
  induction tasks with
  | nil =>
    intro idx reports orders
    left
    rfl
  | cons t rest ih =>
    intro idx reports orders
    simp only [modalLoop]
    cases hres : osrmRoute ((startPoint.lat, startPoint.lon)
        :: ((buildOrder dist orderMode t.weekKey startPoint.lat startPoint.lon
              t.points).map (fun p => (p.lat, p.lon))
            ++ [(startPoint.lat, startPoint.lon)]))
        DEFAULT_OSRM_TIMEOUT_MS (abortedAtCall idx) (eventAt idx) with
    | ok routeRes => exact ih (idx + 1) _ _
    | error e =>
      cases e with
      | abortError => right; exact ⟨rfl, rfl⟩
      | error m => right; exact ⟨rfl, rfl⟩

def wStartM : StartPointInfo := { lat := 0, lon := 0, address := "base" }

def wTaskM : ModalTask :=
  { route := "R1", dayCode := "1", dayLabel := "ПН", weekOffset := 0,
    isoWeek := 10, weekKey := "2", points := [tiePointB] }

def wRouteDataM : OsrmRouteData :=
  { distance := 1000, duration := 600, legs := [], geometry := none }

/-- First provider call answers successfully, second is aborted by the
caller. -/
def cexModalEvents : Nat → FetchEvent := fun i =>
  if i = 0 then FetchEvent.response true 200 [wRouteDataM]
  else FetchEvent.externalAbort

/-- C7 counterexample: with two tasks whose first provider call completes
successfully and whose second is cancelled by the caller, the run does
end with the cancellation message, but the draft result set is `null` —
the already fully processed first combination does NOT appear in any
partial result set, contradicting the claim that previously completed
combinations are preserved.  (`setDraftReports` only runs after the whole
loop; the `catch` leaves the drafts untouched, RoadMileageModal.tsx:
452-469.) -/
theorem cancellation_cex :
    cexModalEvents 0 = FetchEvent.response true 200 [wRouteDataM]
    ∧ (runRoadMileageModal latDist .rebuildNearest wStartM "R1" false
        (fun _ => "id0") (fun _ => "t0") (fun _ => false) cexModalEvents
        [wTaskM, wTaskM]).error = "Расчёт отменён пользователем."
    ∧ (runRoadMileageModal latDist .rebuildNearest wStartM "R1" false
        (fun _ => "id0") (fun _ => "t0") (fun _ => false) cexModalEvents
        [wTaskM, wTaskM]).draftReports = none := by
  have hord : buildOrder latDist .rebuildNearest wTaskM.weekKey wStartM.lat
      wStartM.lon wTaskM.points = [tiePointB] := by
    show buildOrder latDist .rebuildNearest "2" 0 0 [tiePointB] = [tiePointB]
    simp only [buildOrder]
    exact greedy_singleton latDist 0 0 tiePointB
  have hfull : runRoadMileageModal latDist .rebuildNearest wStartM "R1" false
      (fun _ => "id0") (fun _ => "t0") (fun _ => false) cexModalEvents
      [wTaskM, wTaskM]
      = { error := "Расчёт отменён пользователем.", draftReports := none,
          draftOrders := none } := by
    unfold runRoadMileageModal
    simp only [modalLoop]
    rw [hord]
    rfl
  exact ⟨rfl, by rw [hfull], by rw [hfull]⟩

/-- C7 (amended): when the caller cancels the run at the first in-flight
provider call, the modal run ends with the dedicated cancellation message
(not a provider error), publishes no draft reports and no draft orders,
and `saveWithOrder` leaves every location list unchanged; in general the
loop either completes every task or publishes nothing, so no partial
result set is ever offered — completed combinations are discarded on
cancellation, not preserved; and `computeTerritoryRunRoads`, cancelled
before its first task, likewise discards its fresh copy and rejects with
the `AbortError` (message "Aborted"). -/
theorem cancellation_spec (dist : ℚ → ℚ → ℚ → ℚ → ℚ)
    (orderMode : RoadMileageOrderMode) (startPoint : StartPointInfo)
    (sectionRoute : String) (wantTrack : Bool)
    (uidOf createdAtOf : Nat → String) (abortedAtCall : Nat → Bool)
    (eventAt : Nat → FetchEvent) (tasks : List ModalTask)
    (points : List Point)
    (habort : abortedAtCall 0 = true ∨ eventAt 0 = FetchEvent.externalAbort)
    (hne : tasks ≠ []) :
    (runRoadMileageModal dist orderMode startPoint sectionRoute wantTrack
        uidOf createdAtOf abortedAtCall eventAt tasks).error
      = "Расчёт отменён пользователем."
    ∧ (runRoadMileageModal dist orderMode startPoint sectionRoute wantTrack
        uidOf createdAtOf abortedAtCall eventAt tasks).draftReports = none
    ∧ (runRoadMileageModal dist orderMode startPoint sectionRoute wantTrack
        uidOf createdAtOf abortedAtCall eventAt tasks).draftOrders = none
    ∧ saveWithOrder points
        (runRoadMileageModal dist orderMode startPoint sectionRoute wantTrack
          uidOf createdAtOf abortedAtCall eventAt tasks).draftReports
        (runRoadMileageModal dist orderMode startPoint sectionRoute wantTrack
          uidOf createdAtOf abortedAtCall eventAt tasks).draftOrders = points
    ∧ ((runRoadMileageModal dist orderMode startPoint sectionRoute wantTrack
          uidOf createdAtOf abortedAtCall eventAt tasks).error = ""
        ∨ ((runRoadMileageModal dist orderMode startPoint sectionRoute
              wantTrack uidOf createdAtOf abortedAtCall eventAt
              tasks).draftReports = none
          ∧ (runRoadMileageModal dist orderMode startPoint sectionRoute
              wantTrack uidOf createdAtOf abortedAtCall eventAt
              tasks).draftOrders = none))
    ∧ (∀ (maxStops : Nat) (abortedBefore : Nat → Bool)
          (roadEventAt : Nat → FetchEvent) (nowStr : String)
          (nowAt : Nat → String) (run : TerritoryCalcRun),
        abortedBefore 0 = true → roadTasks run ≠ [] →
          (computeTerritoryRunRoads maxStops abortedBefore roadEventAt nowStr
              nowAt run).result = .error .abortError
          ∧ jsErrorMessage .abortError = "Aborted") := by
  obtain ⟨t, rest, rfl⟩ : ∃ t rest, tasks = t :: rest := by
    cases tasks with
    | nil => exact absurd rfl hne
    | cons t rest => exact ⟨t, rest, rfl⟩
  have hrun : runRoadMileageModal dist orderMode startPoint sectionRoute
      wantTrack uidOf createdAtOf abortedAtCall eventAt (t :: rest)
      = { error := "Расчёт отменён пользователем.", draftReports := none,
          draftOrders := none } := by
    unfold runRoadMileageModal
    simp only [modalLoop]
    rw [osrmRoute_abortError _ _ _ _ _ _ habort]
  refine ⟨by rw [hrun], by rw [hrun], by rw [hrun], by rw [hrun]; rfl, ?_, ?_⟩
  · exact modalLoop_no_partial dist orderMode startPoint sectionRoute
      wantTrack uidOf createdAtOf abortedAtCall eventAt (t :: rest) 0 [] []
  · intro maxStops abortedBefore roadEventAt nowStr nowAt run hab0 hne2
    refine ⟨?_, rfl⟩
    unfold computeTerritoryRunRoads
    cases htasks : roadTasks run with
    | nil => exact absurd htasks hne2
    | cons t2 r2 =>
      simp only [htasks, List.length_cons]
      rw [if_neg (by omega)]
      simp only [roadsLoop, hab0, if_true]

/-- Witness for `cancellation_spec` at a concrete single-task run whose
only provider call is externally aborted. -/
theorem cancellation_spec_witness :
    ((fun _ : Nat => FetchEvent.externalAbort) 0 = FetchEvent.externalAbort)
    ∧ ([wTaskM] ≠ ([] : List ModalTask))
    ∧ (runRoadMileageModal latDist .rebuildNearest wStartM "R1" false
        (fun _ => "id0") (fun _ => "t0") (fun _ => false)
        (fun _ => FetchEvent.externalAbort) [wTaskM]).error
      = "Расчёт отменён пользователем."
    ∧ (runRoadMileageModal latDist .rebuildNearest wStartM "R1" false
        (fun _ => "id0") (fun _ => "t0") (fun _ => false)
        (fun _ => FetchEvent.externalAbort) [wTaskM]).draftReports = none
    ∧ saveWithOrder [tiePointB]
        (runRoadMileageModal latDist .rebuildNearest wStartM "R1" false
          (fun _ => "id0") (fun _ => "t0") (fun _ => false)
          (fun _ => FetchEvent.externalAbort) [wTaskM]).draftReports
        (runRoadMileageModal latDist .rebuildNearest wStartM "R1" false
          (fun _ => "id0") (fun _ => "t0") (fun _ => false)
          (fun _ => FetchEvent.externalAbort) [wTaskM]).draftOrders
      = [tiePointB] := by
  have h := cancellation_spec latDist .rebuildNearest wStartM "R1" false
    (fun _ => "id0") (fun _ => "t0") (fun _ => false)
    (fun _ => FetchEvent.externalAbort) [wTaskM] [tiePointB]
    (Or.inr rfl) (by simp)
  exact ⟨rfl, by simp, h.1, h.2.1, h.2.2.2.1⟩

end Routing
